import Mathlib

/-
Verification development for the touchh.world spatial intent resolution
pipeline.  The TypeScript sources are shallowly embedded here:

  * src/lib/vectorMath.ts        -> namespace VectorMath   (real-valued geometry)
  * ConfidenceSmoother (env.ts)  -> namespace Smoothing    (rational EMA filter)
  * src/lib/rateLimit.ts         -> namespace RateLimit    (fixed-window counter)
  * the tap-context POST handler -> namespace TapContext   (disambiguation engine)

JavaScript numbers are modelled as rationals where the code only performs
field arithmetic and comparisons, and as real numbers where transcendental
functions (sin, cos, atan2, sqrt) are involved (great-circle distance,
bearings, tap direction projection).  JavaScript truthiness of optional
numeric and string values is modelled explicitly (0 and the empty string
are falsy).  External collaborators (Gemini vision, Google Places, the
geo-context route) are modelled as oracle values describing the response
the network layer delivered; the JSON/regex parsing of the vision response
is abstracted into the outcome constructors of that oracle.
-/

namespace Smoothing

/-- Clamp a confidence value to the interval [0, 1], as in
ConfidenceSmoother.smooth: Math.max(0, Math.min(1, confidence)). -/
def clampQ (v : ℚ) : ℚ := max 0 (min 1 v)

/-- Exponential moving average of the history with alpha = 0.5, exactly as
ConfidenceSmoother.exponentialMovingAverage: empty history gives 0, a
single entry gives that entry, otherwise fold from the oldest entry. -/
def ema : List ℚ → ℚ
  | [] => 0
  | x :: xs => xs.foldl (fun e v => (1/2) * v + (1 - 1/2) * e) x

/-- Push a clamped value onto the history, dropping the oldest entry when
the history exceeds maxHistorySize = 5 entries. -/
def push (h : List ℚ) (v : ℚ) : List ℚ :=
  let h2 := h ++ [clampQ v]
  if 5 < h2.length then h2.drop 1 else h2

/-- ConfidenceSmoother.smooth: clamp, append to history (bounded to 5),
return the exponential moving average together with the new history. -/
def smooth (h : List ℚ) (v : ℚ) : ℚ × List ℚ :=
  let h2 := push h v
  (ema h2, h2)

/-- History produced by feeding a sequence of raw inputs through smooth,
starting from the empty history of a fresh ConfidenceSmoother. -/
def runHistory (vs : List ℚ) : List ℚ :=
  vs.foldl push []

end Smoothing

namespace VectorMath

/-- Vector2D from src/lib/vectorMath.ts, with coordinates as reals. -/
structure Vector2D where
  x : ℝ
  y : ℝ

/-- Vector3D from src/lib/vectorMath.ts, with coordinates as reals. -/
structure Vector3D where
  x : ℝ
  y : ℝ
  z : ℝ

/-- distance2D from vectorMath.ts. -/
noncomputable def distance2D (a b : Vector2D) : ℝ :=
  let dx := a.x - b.x
  let dy := a.y - b.y
  Real.sqrt (dx * dx + dy * dy)

/-- distance3D from vectorMath.ts. -/
noncomputable def distance3D (a b : Vector3D) : ℝ :=
  let dx := a.x - b.x
  let dy := a.y - b.y
  let dz := a.z - b.z
  Real.sqrt (dx * dx + dy * dy + dz * dz)

/-- normalize2D from vectorMath.ts: returns the zero vector when the
length is zero instead of dividing by zero. -/
noncomputable def normalize2D (v : Vector2D) : Vector2D :=
  let length := Real.sqrt (v.x * v.x + v.y * v.y)
  if length = 0 then ⟨0, 0⟩ else ⟨v.x / length, v.y / length⟩

/-- dot3D from vectorMath.ts. -/
noncomputable def dot3D (a b : Vector3D) : ℝ :=
  a.x * b.x + a.y * b.y + a.z * b.z

/-- angleBetween3D from vectorMath.ts: both magnitudes are computed
inline; a zero magnitude short-circuits to 0, otherwise the cosine is
clamped to [-1, 1] before Math.acos. -/
noncomputable def angleBetween3D (a b : Vector3D) : ℝ :=
  let dot := dot3D a b
  let magA := Real.sqrt (a.x * a.x + a.y * a.y + a.z * a.z)
  let magB := Real.sqrt (b.x * b.x + b.y * b.y + b.z * b.z)
  if magA = 0 ∨ magB = 0 then 0
  else Real.arccos (max (-1) (min 1 (dot / (magA * magB))))

/-- Magnitude of a 3D vector, the inline expression used by angleBetween3D. -/
noncomputable def mag3 (v : Vector3D) : ℝ :=
  Real.sqrt (v.x * v.x + v.y * v.y + v.z * v.z)

end VectorMath

namespace RateLimit

/-- RateLimitEntry from src/lib/rateLimit.ts: request count and window
expiry timestamp (milliseconds). -/
structure RLEntry where
  count : ℕ
  resetAt : ℕ
deriving DecidableEq, Repr

/-- Result of checkRateLimit. -/
structure RLResult where
  allowed : Bool
  remaining : ℕ
  resetAt : ℕ
deriving DecidableEq, Repr

/-- The in-memory store rateLimitStore, a Map from client identifier to
entry, modelled as an association list in insertion order. -/
abbrev RLStore : Type := List (String × RLEntry)

/-- Map.get: the entry currently stored for a client identifier. -/
def storeGet (s : RLStore) (id : String) : Option RLEntry :=
  (List.find? (fun p => p.1 = id) s).map (fun p => p.2)

/-- Map.set: overwrite the entry for an existing key in place, otherwise
append a new binding (JavaScript Map preserves insertion order). -/
def storeSet (s : RLStore) (id : String) (e : RLEntry) : RLStore :=
  if (List.find? (fun p => p.1 = id) s).isSome then
    s.map (fun p => if p.1 = id then (id, e) else p)
  else
    s ++ [(id, e)]

/-- RATE_LIMIT_WINDOW_MS = 60 * 1000. -/
def windowMs : ℕ := 60 * 1000

/-- RATE_LIMIT_MAX_REQUESTS = 60. -/
def maxRequests : ℕ := 60

/-- cleanupExpiredEntries: delete every entry whose resetAt has passed. -/
def cleanup (now : ℕ) (s : RLStore) : RLStore :=
  List.filter (fun p => decide (now < p.2.resetAt)) s

/-- checkRateLimit from src/lib/rateLimit.ts.  A missing or expired entry
is re-created with count 1 (and the store is swept when it holds more
than 1000 entries); a live entry at or above the limit is denied without
mutation; otherwise the count is incremented. -/
def checkRateLimit (id : String) (now : ℕ) (s : RLStore) : RLResult × RLStore :=
  match storeGet s id with
  | none =>
    let resetAt := now + windowMs
    let s2 := storeSet s id ⟨1, resetAt⟩
    let s3 := if 1000 < s2.length then cleanup now s2 else s2
    (⟨true, maxRequests - 1, resetAt⟩, s3)
  | some e =>
    if e.resetAt ≤ now then
      let resetAt := now + windowMs
      let s2 := storeSet s id ⟨1, resetAt⟩
      let s3 := if 1000 < s2.length then cleanup now s2 else s2
      (⟨true, maxRequests - 1, resetAt⟩, s3)
    else if maxRequests ≤ e.count then
      (⟨false, 0, e.resetAt⟩, s)
    else
      (⟨true, maxRequests - (e.count + 1), e.resetAt⟩, storeSet s id ⟨e.count + 1, e.resetAt⟩)

/-- Run checkRateLimit for one client at each time in the list, threading
the store, collecting the results in order. -/
def rlRun (id : String) : RLStore → List ℕ → List RLResult × RLStore
  | s, [] => ([], s)
  | s, t :: ts =>
    let r := checkRateLimit id t s
    let rest := rlRun id r.2 ts
    (r.1 :: rest.1, rest.2)

/-- Number of allowed results in a list of rate limit results. -/
def countAllowed (rs : List RLResult) : ℕ :=
  (rs.filter (fun r => r.allowed)).length

end RateLimit

namespace TapContext

/-- Lowercasing of a string, as String.prototype.toLowerCase on the ASCII
identifiers and names handled by the pipeline. -/
def strLower (s : String) : String := ⟨s.data.map Char.toLower⟩

/-- Check whether the first character list starts with the second. -/
def startsWithCL : List Char → List Char → Bool
  | _, [] => true
  | [], _ :: _ => false
  | a :: as, b :: bs => a == b && startsWithCL as bs

/-- Check whether the second character list occurs inside the first. -/
def containsCL : List Char → List Char → Bool
  | [], needle => needle.isEmpty
  | a :: t, needle => startsWithCL (a :: t) needle || containsCL t needle

/-- String.prototype.includes: does hay contain needle as a substring. -/
def strIncludes (hay needle : String) : Bool := containsCL hay.data needle.data

/-- Helper for jsSplitWs: walk the characters with a flag recording
whether the previous character was whitespace, emitting the current token
when a whitespace run starts and always emitting the trailing token. -/
def splitWsAux : List Char → Bool → String → List String → List String
  | [], _, cur, acc => (cur :: acc).reverse
  | c :: cs, prevWs, cur, acc =>
    if c.isWhitespace then
      if prevWs then splitWsAux cs true cur acc
      else splitWsAux cs true "" (cur :: acc)
    else splitWsAux cs false (cur.push c) acc

/-- JavaScript split on a whitespace-run pattern: maximal whitespace runs
separate tokens, and a leading or trailing run contributes an empty
boundary token, exactly as String.prototype.split with that pattern. -/
def jsSplitWs (s : String) : List String := splitWsAux s.data false "" []

/-- JavaScript truthiness of an optional string (absent and empty are falsy). -/
def oTruthy : Option String → Bool
  | some s => !s.isEmpty
  | none => false

/-- JavaScript a || b for an optional string with a string default. -/
def jsOrS : Option String → String → String
  | some s, d => if s.isEmpty then d else s
  | none, d => d

/-- JavaScript a || b where both operands are optional strings. -/
def jsOrOS : Option String → Option String → Option String
  | some s, b => if s.isEmpty then b else some s
  | none, b => b

/-- JavaScript a || b for an optional number with a numeric default
(a present 0 is falsy and falls through to the default). -/
def jsOrQ : Option ℚ → ℚ → ℚ
  | some q, d => if q = 0 then d else q
  | none, d => d

/-- JavaScript a || b for an optional count with a numeric default. -/
def jsOrN : Option ℕ → ℕ → ℕ
  | some n, d => if n = 0 then d else n
  | none, d => d

/-- JavaScript truthiness of an optional number (absent and 0 are falsy). -/
def qTruthy : Option ℚ → Bool
  | some q => !(q == 0)
  | none => false

/-- Pad a digit string on the left with zeros to the requested length. -/
def natPad (len : ℕ) (s : String) : String :=
  if s.length < len then String.mk (List.replicate (len - s.length) '0') ++ s else s

/-- Number.prototype.toFixed(digits): round the absolute value half-up at
the requested number of decimal places, then print sign, integer part and
zero-padded fraction (no decimal point when digits = 0). -/
def toFixed (digits : ℕ) (q : ℚ) : String :=
  let sign := if q < 0 then "-" else ""
  let a := |q|
  let n := (Int.floor (a * (10 ^ digits : ℕ) + 1/2)).toNat
  if digits = 0 then
    sign ++ toString n
  else
    sign ++ toString (n / 10 ^ digits) ++ "." ++ natPad digits (toString (n % 10 ^ digits))

/-- Fractional decimal digits of a rational in [0, 1), up to the given
fuel, stopping when the remainder reaches zero. -/
def fracDigits : ℕ → ℚ → String
  | 0, _ => ""
  | fuel + 1, q =>
    if q = 0 then ""
    else
      let q10 := q * 10
      let d := Int.floor q10
      toString d.toNat ++ fracDigits fuel (q10 - (d : ℚ))

/-- Decimal rendering of a rational, standing in for the JavaScript
number-to-string conversion used in template literals; it agrees with
JavaScript on the terminating decimal values that appear in place data. -/
def qToStr (q : ℚ) : String :=
  let sign := if q < 0 then "-" else ""
  let a := |q|
  let ip := Int.floor a
  let fp := a - (ip : ℚ)
  sign ++ toString ip.toNat ++ (if fp = 0 then "" else "." ++ fracDigits 17 fp)

/-- Replace every underscore with a space, as replace with a global
underscore pattern. -/
def underscoresToSpaces (s : String) : String :=
  ⟨s.data.map (fun c => if c = '_' then ' ' else c)⟩

/-- Capitalize the first character of a word, as
word.charAt(0).toUpperCase() + word.slice(1). -/
def capitalizeWord (w : String) : String :=
  match w.data with
  | [] => ""
  | c :: rest => ⟨Char.toUpper c :: rest⟩

/-- The formattedType computation: replace underscores with spaces, split
on single spaces, capitalize each word, join with spaces. -/
def formatTypeString (t : String) : String :=
  String.intercalate " " (((underscoresToSpaces t).splitOn " ").map capitalizeWord)

/-- Math.atan2 with the quadrant conventions of the C and JavaScript
libraries (atan2 0 0 = 0). -/
noncomputable def atan2 (y x : ℝ) : ℝ :=
  if 0 < x then Real.arctan (y / x)
  else if x < 0 then
    (if 0 ≤ y then Real.arctan (y / x) + Real.pi else Real.arctan (y / x) - Real.pi)
  else if 0 < y then Real.pi / 2
  else if y < 0 then -(Real.pi / 2)
  else 0

/-- Haversine great-circle distance in meters, exactly as computed inline
in the tap-context handler (earth radius 6371000 m). -/
noncomputable def haversineDist (userLat userLng placeLat placeLng : ℝ) : ℝ :=
  let dLat := (placeLat - userLat) * Real.pi / 180
  let dLng := (placeLng - userLng) * Real.pi / 180
  let a := Real.sin (dLat / 2) * Real.sin (dLat / 2) +
    Real.cos (userLat * Real.pi / 180) * Real.cos (placeLat * Real.pi / 180) *
    Real.sin (dLng / 2) * Real.sin (dLng / 2)
  let c := 2 * atan2 (Real.sqrt a) (Real.sqrt (1 - a))
  6371000 * c

/-- Bearing in degrees from the user location to a place, exactly as
computed inline in the nearby-search scoring of the tap-context handler. -/
noncomputable def bearingDeg (userLat userLng placeLat placeLng : ℝ) : ℝ :=
  let dLng := (placeLng - userLng) * Real.pi / 180
  let y := Real.sin dLng * Real.cos (placeLat * Real.pi / 180)
  let x := Real.cos (userLat * Real.pi / 180) * Real.sin (placeLat * Real.pi / 180) -
    Real.sin (userLat * Real.pi / 180) * Real.cos (placeLat * Real.pi / 180) * Real.cos dLng
  atan2 y x * 180 / Real.pi

/-- A place candidate as delivered by the Places text or nearby search:
name, optional geometry (absent coordinates are modelled as none, and a
coordinate of exactly 0 is falsy in the JavaScript guard), place id and
type tags (an absent tags array behaves like the empty list in the only
use, Array.prototype.some). -/
structure Candidate where
  name : String
  lat : Option ℚ
  lng : Option ℚ
  placeId : String
  types : List String
deriving DecidableEq, Repr

/-- Token-overlap ratio branch of the Strategy A name score: count the
vision-name tokens occurring among the place-name tokens and divide by
the larger token count. -/
def tokenOverlap (visionNameLower nameLower : String) : ℚ :=
  let visionWords := jsSplitWs visionNameLower
  let placeWords := jsSplitWs nameLower
  let overlap := (visionWords.filter (fun w => placeWords.contains w)).length
  (overlap : ℚ) / (max visionWords.length placeWords.length : ℚ)

/-- Strategy A name score over the already-lowercased names: 0 when the
vision name is empty (falsy), 1.0 on equality, 0.7 on substring
containment in either direction, and otherwise the token-overlap ratio. -/
def nameScore (visionNameLower nameLower : String) : ℚ :=
  if visionNameLower = "" then 0
  else if nameLower = visionNameLower then 1
  else if strIncludes nameLower visionNameLower || strIncludes visionNameLower nameLower then 7/10
  else tokenOverlap visionNameLower nameLower

/-- Scored candidate record built by the Strategy A map over text-search
results. -/
structure ScoredA where
  place : Candidate
  distance : ℝ
  nameScore : ℝ
  score : ℝ

/-- Scored candidate record built by the Strategy B map over nearby
results. -/
structure ScoredB where
  place : Candidate
  distance : ℝ
  bearing : ℝ
  score : ℝ

/-- Strategy A per-candidate computation: skip candidates with falsy
coordinates, otherwise compute Haversine distance, name score and the
composite score 0.7 x nameScore + 0.3 x (1 - min(distance/2000, 1)). -/
noncomputable def scoreCandidateA (visionName : String) (userLat userLng : ℚ)
    (place : Candidate) : Option ScoredA :=
  match place.lat, place.lng with
  | some plat, some plng =>
    if plat = 0 ∨ plng = 0 then none
    else
      let distance := haversineDist (userLat : ℝ) (userLng : ℝ) (plat : ℝ) (plng : ℝ)
      let ns : ℚ := nameScore (strLower visionName) (strLower place.name)
      some ⟨place, distance, (ns : ℝ), (ns : ℝ) * (7/10) + (1 - min (distance / 2000) 1) * (3/10)⟩
  | _, _ => none

/-- Whether the Strategy B type bonus fires: the vision type is present
and truthy and some candidate tag contains it or is contained in it,
case-insensitively. -/
def typeBonusApplies (visionType : Option String) (types : List String) : Bool :=
  match visionType with
  | some t => !t.isEmpty &&
      types.any (fun tg => strIncludes (strLower tg) (strLower t) || strIncludes (strLower t) (strLower tg))
  | none => false

/-- Direction vector type for the tap projection (the handler builds it
from the tap position with sines of half-field-of-view offsets). -/
structure Vec3 where
  x : ℝ
  y : ℝ
  z : ℝ

/-- Strategy B per-candidate computation: skip candidates with falsy
coordinates, otherwise compute bearing, Haversine distance, the tap
bearing atan2(direction.x, direction.z) in degrees, distance score
1/(1 + distance/50), direction score (1 - bearingDiff/45 below 45
degrees, else 0) weighted by 0.5, and a 0.3 type bonus. -/
noncomputable def scoreCandidateB (visionType : Option String) (userLat userLng : ℚ)
    (direction : Vec3) (place : Candidate) : Option ScoredB :=
  match place.lat, place.lng with
  | some plat, some plng =>
    if plat = 0 ∨ plng = 0 then none
    else
      let bearing := bearingDeg (userLat : ℝ) (userLng : ℝ) (plat : ℝ) (plng : ℝ)
      let distance := haversineDist (userLat : ℝ) (userLng : ℝ) (plat : ℝ) (plng : ℝ)
      let tapBearing := atan2 direction.x direction.z * 180 / Real.pi
      let distScore : ℝ := 1 / (1 + distance / 50)
      let bearingDiff := |bearing - tapBearing|
      let directionScore : ℝ := if bearingDiff < 45 then 1 - bearingDiff / 45 else 0
      let base := distScore + directionScore * (1/2)
      let final := if typeBonusApplies visionType place.types then base + 3/10 else base
      some ⟨place, distance, bearing, final⟩
  | _, _ => none

/-- Head of the list sorted in descending score order: since the
JavaScript comparator (a, b) => b.score - a.score is applied by a stable
sort, element 0 of the sorted array is the first element attaining the
maximal score, computed here by a left fold that keeps the earlier
element on ties. -/
noncomputable def bestBy {α : Type} (score : α → ℝ) : List α → Option α
  | [] => none
  | x :: xs => some (xs.foldl (fun b c => if score b < score c then c else b) x)

/-- The element m is the first element of l attaining the maximal score:
everything before it scores strictly less, everything after scores no
more. -/
def IsFirstMax {α : Type} (score : α → ℝ) (l : List α) (m : α) : Prop :=
  ∃ l₁ l₂, l = l₁ ++ m :: l₂ ∧ (∀ c ∈ l₁, score c < score m) ∧ (∀ c ∈ l₂, score c ≤ score m)

/-- Strategy A selection over one text-search response: score every
candidate with usable geometry, take the top-scoring one, and accept it
only when its distance is below 2000 m. -/
noncomputable def strategyAMatch (visionName : String) (userLat userLng : ℚ)
    (results : List Candidate) : Option ScoredA :=
  let scored := results.filterMap (scoreCandidateA visionName userLat userLng)
  match bestBy ScoredA.score scored with
  | some m => if m.distance < 2000 then some m else none
  | none => none

/-- Outcome of one text-search fetch in the Strategy A query loop. -/
inductive TextSearchResponse where
  /-- The fetch resolved with response.ok false: try the next query. -/
  | fetchFailed : TextSearchResponse
  /-- Status REQUEST_DENIED or ZERO_RESULTS: break out of the loop. -/
  | denied : TextSearchResponse
  /-- An OK response with a (possibly empty) result list. -/
  | results : List Candidate → TextSearchResponse
deriving DecidableEq

/-- The Strategy A query loop: up to three queries are tried in order,
stopping at the first accepted match, breaking early on a denied or
zero-result status. -/
noncomputable def strategyALoop (visionName : String) (userLat userLng : ℚ) :
    List TextSearchResponse → Option ScoredA
  | [] => none
  | r :: rs =>
    match r with
    | .fetchFailed => strategyALoop visionName userLat userLng rs
    | .denied => none
    | .results cands =>
      if cands.isEmpty then strategyALoop visionName userLat userLng rs
      else
        match strategyAMatch visionName userLat userLng cands with
        | some m => some m
        | none => strategyALoop visionName userLat userLng rs

/-- Outcome of the nearby-search fetch used by Strategy B. -/
inductive NearbyResponse where
  /-- The fetch resolved with response.ok false. -/
  | fetchFailed : NearbyResponse
  /-- Status REQUEST_DENIED (logged, no candidates scored). -/
  | denied : NearbyResponse
  /-- An OK response with a (possibly empty) result list. -/
  | results : List Candidate → NearbyResponse
deriving DecidableEq

/-- Strategy B selection over the nearby-search results: score every
candidate, take the top-scoring one, and accept it only when its distance
is below the 150 m search radius and its score exceeds 0.2. -/
noncomputable def strategyBMatch (visionType : Option String) (userLat userLng : ℚ)
    (direction : Vec3) (results : List Candidate) : Option ScoredB :=
  let scored := results.filterMap (scoreCandidateB visionType userLat userLng direction)
  match bestBy ScoredB.score scored with
  | some m => if m.distance < 150 ∧ (1/5 : ℝ) < m.score then some m else none
  | none => none

/-- Name score as the specification states it, over the raw hint and
candidate names: 1.0 on an exact case-insensitive match, 0.7 on substring
containment in either direction, otherwise the token-overlap ratio. -/
def nameScoreSpec (hintName candName : String) : ℚ :=
  if strLower candName = strLower hintName then 1
  else if strIncludes (strLower candName) (strLower hintName) ||
      strIncludes (strLower hintName) (strLower candName) then 7/10
  else tokenOverlap (strLower hintName) (strLower candName)

/-- Distance score as the specification states it for Strategy B. -/
noncomputable def distanceScoreSpec (distance : ℝ) : ℝ := 1 / (1 + distance / 50)

/-- Direction score as the specification states it for Strategy B. -/
noncomputable def directionScoreSpec (bearing tapBearing : ℝ) : ℝ :=
  let bearingDiff := |bearing - tapBearing|
  if bearingDiff < 45 then 1 - bearingDiff / 45 else 0

/-- Type bonus as the specification states it for Strategy B (a present,
nonempty vision type containing or contained in some candidate tag). -/
noncomputable def typeBonusSpec (visionType : Option String) (types : List String) : ℝ :=
  if typeBonusApplies visionType types then 3/10 else 0

/-- The structured (or regex-extracted) vision result: all fields may be
absent. -/
structure VisionResult where
  name : Option String
  type : Option String
  description : Option String
  details : Option String
  year : Option String
  architecturalStyle : Option String
  significance : Option String
deriving DecidableEq

/-- Outcome of the Gemini vision call, at the granularity the handler
distinguishes.  The JSON extraction and the regex fallback act on the
raw response text; their outcomes are carried by the constructors. -/
inductive GeminiResponse where
  /-- The fetch threw (network error or missing API key): caught, the
  vision result stays null. -/
  | fetchError : GeminiResponse
  /-- response.ok was false: logged, the vision result stays null. -/
  | httpNotOk : GeminiResponse
  /-- An OK response whose candidate parts carry no text. -/
  | okNoText : GeminiResponse
  /-- Text without any JSON object substring: no parse is attempted and
  the vision result stays null. -/
  | okNoJson : GeminiResponse
  /-- Text whose JSON object substring parsed successfully. -/
  | okJson : VisionResult → GeminiResponse
  /-- Text whose JSON object substring failed to parse: the regex
  fallback extracts name, type and description from the raw text. -/
  | okUnparsable : Option String → Option String → Option String → GeminiResponse
deriving DecidableEq

/-- The vision hint produced by Step 1 of the handler from the Gemini
outcome: null on every failure, the parsed record on success, and a
record holding only the regex-extracted name/type/description when the
JSON parse failed. -/
def visionHint : GeminiResponse → Option VisionResult
  | .okJson v => some v
  | .okUnparsable n t d => some ⟨n, t, d, none, none, none, none⟩
  | _ => none

/-- Detail record from the Places details API, with the fields the
handler reads. -/
structure Review where
  text : String
deriving DecidableEq

/-- Fields of detailsData.result read by the handler. -/
structure PlaceDetails where
  name : Option String
  formattedAddress : Option String
  phone : Option String
  rating : Option ℚ
  userRatingsTotal : Option ℕ
  types : List String
  editorialSummary : Option String
  reviews : List Review
  hoursWeekday : Option (List String)
  url : Option String
  website : Option String
deriving DecidableEq

/-- Outcome of the Places details fetch. -/
inductive DetailsResponse where
  /-- The fetch resolved with response.ok false. -/
  | fetchFailed : DetailsResponse
  /-- An OK response without a result record. -/
  | noResult : DetailsResponse
  /-- An OK response with a result record. -/
  | result : PlaceDetails → DetailsResponse
deriving DecidableEq

/-- One place from the geo-context fallback response. -/
structure GeoPlace where
  name : Option String
  type : Option String
  confidence : Option ℚ
  url : Option String
  website : Option String
deriving DecidableEq

/-- Outcome of the geo-context fallback call as the handler observes it:
a non-OK response, or an OK response with a places list. -/
inductive GeoResponse where
  | notOk : GeoResponse
  | ok : List GeoPlace → GeoResponse
deriving DecidableEq

/-- Responses of all external collaborators for one attempt, together
with whether GOOGLE_API_KEY is configured (its absence makes
serverConfig accessors throw, which the handler catches). -/
structure World where
  gemini : GeminiResponse
  textSearch : List TextSearchResponse
  nearby : NearbyResponse
  details : DetailsResponse
  geo : GeoResponse
  hasGoogleKey : Bool
deriving DecidableEq

/-- The parsed request body of the tap-context endpoint: fields are
present when the JSON carried a value of the right type (a none means
absent or of the wrong type). -/
structure TapRequest where
  image : Option String
  tapX : Option ℚ
  tapY : Option ℚ
  latitude : Option ℚ
  longitude : Option ℚ
deriving DecidableEq

/-- The JSON payload of a successful tap-context response. -/
structure ResolutionResult where
  title : String
  subtitle : String
  description : Option String
  details : Option String
  year : Option String
  confidence : ℚ
  url : Option String
deriving DecidableEq

/-- The responses the tap-context endpoint can produce.  serverError
corresponds to the outermost catch (status 500); none of the modelled
paths produce it because every collaborator failure is handled inline. -/
inductive TapResponse where
  | rateLimited : TapResponse
  | badRequest : TapResponse
  | ok : ResolutionResult → TapResponse
  | serverError : TapResponse
deriving DecidableEq

/-- JavaScript template interpolation of a possibly-absent string (an
absent value prints as the text undefined). -/
def jsTemplateS : Option String → String
  | some s => s
  | none => "undefined"

/-- JavaScript a || null for an optional string. -/
def jsOrNull (a : Option String) : Option String :=
  if oTruthy a then a else none

/-- Step 2 of the handler: the forward-biased direction vector derived
from the normalized tap position with a 60 degree field of view. -/
noncomputable def directionOf (tapX tapY : ℚ) : Vec3 :=
  let fovRad : ℝ := 60 * Real.pi / 180
  let offsetX : ℝ := ((tapX : ℝ) - 1/2) * 2
  let offsetY : ℝ := ((tapY : ℝ) - 1/2) * 2
  ⟨Real.sin (offsetX * fovRad / 2) * (1/10),
   -(Real.sin (offsetY * fovRad / 2) * (1/10)),
   95/100⟩

/-- The combined description of the merged (vision + place details)
result: prefer the editorial summary (appending the vision description),
else the vision description, else a generated sentence. -/
def mergedDescription (vr : Option VisionResult) (d : PlaceDetails) : String :=
  let ov := d.editorialSummary
  let vd := vr.bind VisionResult.description
  if oTruthy ov then
    jsOrS ov "" ++ (if oTruthy vd then " " ++ jsOrS vd "" else "")
  else if oTruthy vd then jsOrS vd ""
  else
    jsTemplateS d.name ++ " is a " ++
      jsOrS (d.types.head?.map underscoresToSpaces) "location" ++ " located at " ++
      jsOrS d.formattedAddress "this location" ++ "."

/-- The ordered detail parts pushed by the merged result builder. -/
def mergedDetailsParts (vr : Option VisionResult) (d : PlaceDetails) : List String :=
  (if oTruthy d.editorialSummary then [jsOrS d.editorialSummary ""] else []) ++
  (match vr.bind VisionResult.details with
   | some vd =>
     if vd != "" && (match d.editorialSummary with | some ov => vd != ov | none => true)
     then [vd] else []
   | none => []) ++
  (match vr.bind VisionResult.significance with
   | some s => if s != "" then ["Significance: " ++ s] else []
   | none => []) ++
  (match vr.bind VisionResult.architecturalStyle with
   | some s => if s != "" then ["Architectural Style: " ++ s] else []
   | none => []) ++
  (match vr.bind VisionResult.year with
   | some s => if s != "" then ["Built: " ++ s] else []
   | none => []) ++
  (if oTruthy d.formattedAddress then ["📍 Address: " ++ jsOrS d.formattedAddress ""] else []) ++
  (if qTruthy d.rating then
    ["⭐ Rating: " ++ qToStr (jsOrQ d.rating 0) ++ "/5 (" ++
      toString (jsOrN d.userRatingsTotal 0) ++ " reviews)"] else []) ++
  (if oTruthy d.phone then ["📞 Phone: " ++ jsOrS d.phone ""] else []) ++
  (match d.hoursWeekday with
   | some l => ["🕐 Hours: " ++ jsTemplateS l.head?]
   | none => []) ++
  (match d.reviews.head? with
   | some r =>
     if r.text != "" then
       ["💬 Review: \"" ++ r.text.take 200 ++
         (if 200 < r.text.length then "..." else "") ++ "\""]
     else []
   | none => [])

/-- The merged result returned when a place was accepted and its detail
fetch succeeded: fixed confidence 0.9. -/
def mergedResult (vr : Option VisionResult) (d : PlaceDetails) : ResolutionResult :=
  { title := jsOrS (jsOrOS (vr.bind VisionResult.name) d.name) "Building"
    subtitle := formatTypeString (jsOrS (jsOrOS (vr.bind VisionResult.type) d.types.head?) "Location")
    description := some (mergedDescription vr d)
    details := some (String.intercalate "\n\n" (mergedDetailsParts vr d))
    year := jsOrNull (vr.bind VisionResult.year)
    confidence := 9/10
    url := jsOrOS d.url d.website }

/-- The vision-only result returned inside the strategy block when no
place was matched (details joined with blank lines). -/
def visionOnlyResultA (v : VisionResult) : ResolutionResult :=
  let formattedType := match v.type with
    | some t => if t = "" then "Location" else formatTypeString t
    | none => "Location"
  let parts :=
    (match v.details with | some s => if s != "" then [s] else [] | none => []) ++
    (match v.significance with | some s => if s != "" then [s] else [] | none => []) ++
    (match v.architecturalStyle with
     | some s => if s != "" then ["Architectural style: " ++ s] else []
     | none => [])
  { title := jsOrS v.name "Building"
    subtitle := formattedType
    description := some (jsOrS v.description "")
    details := some (String.intercalate "\n\n" parts)
    year := jsOrNull v.year
    confidence := 7/10
    url := none }

/-- The vision-only result returned when the geo fallback found no
places (details joined with single spaces). -/
def visionOnlyResultB (v : VisionResult) : ResolutionResult :=
  let formattedType := match v.type with
    | some t => if t = "" then "Location" else formatTypeString t
    | none => "Location"
  let parts :=
    (match v.details with | some s => if s != "" then [s] else [] | none => []) ++
    (match v.significance with | some s => if s != "" then [s] else [] | none => []) ++
    (match v.architecturalStyle with
     | some s => if s != "" then ["Architectural style: " ++ s] else []
     | none => [])
  { title := jsOrS v.name "Building"
    subtitle := formattedType
    description := some (jsOrS v.description "")
    details := some (String.intercalate " " parts)
    year := jsOrNull v.year
    confidence := 7/10
    url := none }

/-- The vision-only result returned on the last vision fallback before
the final message (details is the raw vision details). -/
def visionOnlyResultC (v : VisionResult) : ResolutionResult :=
  let formattedType := match v.type with
    | some t => if t = "" then "Location" else formatTypeString t
    | none => "Location"
  { title := jsOrS v.name "Building"
    subtitle := formattedType
    description := some (jsOrS v.description "")
    details := some (jsOrS v.details "")
    year := jsOrNull v.year
    confidence := 7/10
    url := none }

/-- The result built from the first geo-context fallback place, merged
with the vision result when present; its confidence is the place
confidence (0.8 when that is falsy). -/
def geoPlaceResult (vr : Option VisionResult) (p : GeoPlace) : ResolutionResult :=
  let finalName := jsOrS (jsOrOS (vr.bind VisionResult.name) p.name) "Unknown Place"
  let finalType := jsOrS (jsOrOS (vr.bind VisionResult.type) p.type) "Location"
  let description := jsOrS (vr.bind VisionResult.description)
    ("A " ++ strLower finalType ++ " located nearby.")
  let details := jsOrS (vr.bind VisionResult.details)
    (match vr.bind VisionResult.significance with
     | some s => if s = "" then "" else "Significance: " ++ s
     | none => "")
  { title := finalName
    subtitle := formatTypeString finalType
    description := some description
    details := some (if details = "" then jsOrS (vr.bind VisionResult.significance) "" else details)
    year := jsOrNull (vr.bind VisionResult.year)
    confidence := jsOrQ p.confidence (4/5)
    url := jsOrOS p.url p.website }

/-- The final fallback message of the handler: location missing, API key
missing, or nothing found at the (4-decimal) coordinates; the
tap-percentage variant of the subtitle is used only when the computed
subtitle is empty. -/
def finalFallback (hasKey : Bool) (tapX tapY : ℚ) (latitude longitude : Option ℚ) : ResolutionResult :=
  let locTruthy := qTruthy latitude && qTruthy longitude
  let pair :=
    if !locTruthy then
      ("Location Required",
       "Please enable location permissions to get real information about places you tap on.")
    else if !hasKey then
      ("API Key Not Configured",
       "Google Places API key is required. Add GOOGLE_API_KEY to your .env file.")
    else
      ("No Information Found",
       "Location: " ++ toFixed 4 (latitude.getD 0) ++ ", " ++ toFixed 4 (longitude.getD 0) ++
         ". Try tapping on a visible building or landmark.")
  { title := pair.1
    subtitle :=
      if pair.2 = "" then
        "Tapped at (" ++ toFixed 0 (tapX * 100) ++ "%, " ++ toFixed 0 (tapY * 100) ++ "%)"
      else pair.2
    description := none
    details := none
    year := none
    confidence := 3/10
    url := none }

/-- The place selection of Step 3: Strategy A (three text-search queries
while a truthy vision name exists) and, when it produced no place id,
Strategy B over the nearby results (only scored when the result list is
nonempty).  The value is the accepted place id. -/
noncomputable def selectPlace (vr : Option VisionResult) (la lo : ℚ) (dir : Vec3)
    (w : World) : Option String :=
  let viaA :=
    match vr with
    | some v =>
      match v.name with
      | some n =>
        if n = "" then none
        else (strategyALoop n la lo (w.textSearch.take 3)).map (fun (m : ScoredA) => m.place.placeId)
      | none => none
    | none => none
  match viaA with
  | some pid => some pid
  | none =>
    match w.nearby with
    | .results (c :: cs) =>
      (strategyBMatch (vr.bind VisionResult.type) la lo dir (c :: cs)).map
        (fun (m : ScoredB) => m.place.placeId)
    | _ => none

/-- The geo-context response as the tap-context handler observes it: the
geo route rejects out-of-range coordinates with status 400, returns an
empty place list when the API key is missing, and otherwise behaves as
the oracle says. -/
def geoEffective (la lo : ℚ) (w : World) : GeoResponse :=
  if la < -90 ∨ 90 < la ∨ lo < -180 ∨ 180 < lo then .notOk
  else if !w.hasGoogleKey then .ok []
  else w.geo

/-- The tap-context POST handler after the rate limit gate: validation,
vision hint extraction, direction projection, the cascading place
strategies with detail enrichment, the geo-context fallback, the
vision-only fallback and the final message, in the order of the source. -/
noncomputable def tapContextBody (req : TapRequest) (w : World) : TapResponse :=
  match req.image, req.tapX, req.tapY with
  | some img, some tapX, some tapY =>
    if img = "" then .badRequest
    else if (5 * 1024 * 1024 : ℚ) < (img.length : ℚ) * 3 / 4 then .badRequest
    else
      let visionResult := visionHint w.gemini
      let dir := directionOf tapX tapY
      let locTruthy := qTruthy req.latitude && qTruthy req.longitude
      let la := req.latitude.getD 0
      let lo := req.longitude.getD 0
      let strategyResult : Option TapResponse :=
        if locTruthy && w.hasGoogleKey then
          match selectPlace visionResult la lo dir w with
          | some _ =>
            match w.details with
            | .result d => some (.ok (mergedResult visionResult d))
            | _ => none
          | none =>
            match visionResult with
            | some v => some (.ok (visionOnlyResultA v))
            | none => none
        else none
      match strategyResult with
      | some resp => resp
      | none =>
        let geoResult : Option TapResponse :=
          if locTruthy then
            match geoEffective la lo w with
            | .ok (p :: _) => some (.ok (geoPlaceResult visionResult p))
            | .ok [] =>
              match visionResult with
              | some v => some (.ok (visionOnlyResultB v))
              | none => none
            | .notOk => none
          else none
        match geoResult with
        | some resp => resp
        | none =>
          match visionResult with
          | some v => .ok (visionOnlyResultC v)
          | none => .ok (finalFallback w.hasGoogleKey tapX tapY req.latitude req.longitude)
  | _, _, _ => .badRequest

/-- The tap-context POST endpoint: the rate limit is consulted first and
a denial short-circuits to the 429 response before the body or any
collaborator is touched. -/
noncomputable def tapContextPOST (id : String) (now : ℕ) (s : RateLimit.RLStore)
    (req : TapRequest) (w : World) : TapResponse × RateLimit.RLStore :=
  let r := RateLimit.checkRateLimit id now s
  if r.1.allowed then (tapContextBody req w, r.2) else (.rateLimited, r.2)

/-- Concrete structured vision result used by the enrichment witness. -/
def vr4 : VisionResult := ⟨some "Cafe", none, none, none, none, none, none⟩

/-- Concrete text-search candidate at the device location. -/
def cand4 : Candidate := ⟨"Cafe", some 1, some 1, "pid1", []⟩

/-- Concrete detail record for the enrichment witness. -/
def d4 : PlaceDetails := ⟨none, none, none, none, none, [], none, [], none, none, none⟩

/-- Concrete world for the enrichment witness: the vision call returns a
name that Strategy A matches exactly at distance 0, and the detail fetch
succeeds. -/
def w4 : World := ⟨.okJson vr4, [.results [cand4]], .fetchFailed, .result d4, .notOk, true⟩

/-- Concrete request for the enrichment witness. -/
def req4 : TapRequest := ⟨some "frame", some (1/2), some (1/2), some 1, some 1⟩

/-- Concrete request for the C3 scenario: tap at (55 percent, 66
percent) of the screen, device at (37.7749, -122.4194). -/
def reqC3 : TapRequest :=
  ⟨some "frame", some (11/20), some (33/50), some (377749/10000), some (-(1224194/10000))⟩

/-- Concrete world for the C3 scenario: no vision hint, an empty nearby
result list and an empty geo fallback. -/
def wC3 : World := ⟨.okNoText, [], .results [], .fetchFailed, .ok [], true⟩

end TapContext

namespace Smoothing

lemma clampQ_mem (v : ℚ) : 0 ≤ clampQ v ∧ clampQ v ≤ 1 := by
  unfold clampQ
  constructor
  · exact le_max_left 0 (min 1 v)
  · rcases le_total 1 v with h | h
    · simp [min_eq_left h]
    · simp only [min_eq_right h]
      exact max_le (by norm_num) h

lemma clampQ_of_mem {v : ℚ} (h0 : 0 ≤ v) (h1 : v ≤ 1) : clampQ v = v := by
  unfold clampQ
  rw [min_eq_right h1, max_eq_right h0]

lemma ema_mem {h : List ℚ} (hh : ∀ x ∈ h, 0 ≤ x ∧ x ≤ 1) :
    0 ≤ ema h ∧ ema h ≤ 1 := by
  cases h with
  | nil => simp [ema]
  | cons x xs =>
    unfold ema
    have hx := hh x (List.mem_cons_self _ _)
    have hxs : ∀ y ∈ xs, 0 ≤ y ∧ y ≤ 1 :=
      fun y hy => hh y (List.mem_cons_of_mem _ hy)
    clear hh
    induction xs generalizing x with
    | nil => simpa using hx
    | cons y ys ih =>
      have hy := hxs y (List.mem_cons_self _ _)
      have hys : ∀ z ∈ ys, 0 ≤ z ∧ z ≤ 1 :=
        fun z hz => hxs z (List.mem_cons_of_mem _ hz)
      have hmix : 0 ≤ (1/2) * y + (1 - 1/2) * x ∧ (1/2) * y + (1 - 1/2) * x ≤ 1 := by
        constructor <;> nlinarith [hx.1, hx.2, hy.1, hy.2]
      simpa using ih _ hmix hys

lemma push_mem {h : List ℚ} (hh : ∀ x ∈ h, 0 ≤ x ∧ x ≤ 1) (v : ℚ) :
    ∀ x ∈ push h v, 0 ≤ x ∧ x ≤ 1 := by
  intro x hx
  unfold push at hx
  by_cases hlen : 5 < (h ++ [clampQ v]).length
  · simp only [hlen, if_true] at hx
    have hx2 := List.mem_of_mem_drop hx
    rcases List.mem_append.mp hx2 with h1 | h2
    · exact hh x h1
    · simp only [List.mem_singleton] at h2
      subst h2
      exact clampQ_mem v
  · simp only [hlen, if_false] at hx
    rcases List.mem_append.mp hx with h1 | h2
    · exact hh x h1
    · simp only [List.mem_singleton] at h2
      subst h2
      exact clampQ_mem v

lemma runHistory_mem (vs : List ℚ) : ∀ x ∈ runHistory vs, 0 ≤ x ∧ x ≤ 1 := by
  unfold runHistory
  have general : ∀ (vs : List ℚ) (h : List ℚ), (∀ x ∈ h, 0 ≤ x ∧ x ≤ 1) →
      ∀ x ∈ vs.foldl push h, 0 ≤ x ∧ x ≤ 1 := by
    intro vs
    induction vs with
    | nil => intro h hh; simpa using hh
    | cons v vs ih =>
      intro h hh
      exact ih _ (push_mem hh v)
  exact general vs [] (by simp)

/-- C7: ConfidenceSmoother.smooth on an empty history returns its input
unchanged for every input in [0, 1]; and after any sequence of smooth
calls (with arbitrary rational inputs, also outside [0, 1]), the value
returned by the next smooth call always lies in [0, 1]. -/
theorem confidenceSmoother_smooth_spec :
    (∀ v : ℚ, 0 ≤ v → v ≤ 1 → (Smoothing.smooth [] v).1 = v) ∧
    (∀ (vs : List ℚ) (v : ℚ),
      0 ≤ (Smoothing.smooth (Smoothing.runHistory vs) v).1 ∧
      (Smoothing.smooth (Smoothing.runHistory vs) v).1 ≤ 1) := by
  constructor
  · intro v h0 h1
    simp [Smoothing.smooth, Smoothing.push, Smoothing.ema, Smoothing.clampQ_of_mem h0 h1]
  · intro vs v
    have hmem := Smoothing.push_mem (Smoothing.runHistory_mem vs) v
    exact Smoothing.ema_mem hmem

/-- Witness for C7 at concrete inputs: smoothing 1/2 on a fresh smoother
returns 1/2, and after the out-of-range inputs -1/2 and 3/2 the next
smoothed value still lies in [0, 1]. -/
theorem confidenceSmoother_smooth_spec_witness :
    (Smoothing.smooth [] (1/2)).1 = 1/2 ∧
    (0 ≤ (Smoothing.smooth (Smoothing.runHistory [-(1/2), 3/2]) 2).1 ∧
      (Smoothing.smooth (Smoothing.runHistory [-(1/2), 3/2]) 2).1 ≤ 1) :=
  ⟨confidenceSmoother_smooth_spec.1 (1/2) (by norm_num) (by norm_num),
    confidenceSmoother_smooth_spec.2 [-(1/2), 3/2] 2⟩

end Smoothing

namespace VectorMath

/-- C9: normalize2D applied to the zero vector returns the zero vector
(the zero-length guard fires, so no division by zero occurs), and
angleBetween3D applied to any pair of vectors in which at least one has
zero magnitude returns 0.  In this real-valued embedding both functions
are total, so neither result is an undefined value. -/
theorem geometry_total_at_zero :
    normalize2D ⟨0, 0⟩ = ⟨0, 0⟩ ∧
    ∀ a b : Vector3D, (mag3 a = 0 ∨ mag3 b = 0) → angleBetween3D a b = 0 := by
  constructor
  · unfold normalize2D
    norm_num
  · intro a b h
    unfold angleBetween3D
    unfold mag3 at h
    simp only [h, if_pos]

/-- Witness for C9: the angle between the zero vector and the basis
vector (1, 0, 0) is 0, via the theorem applied at those concrete vectors. -/
theorem geometry_total_at_zero_witness :
    angleBetween3D ⟨0, 0, 0⟩ ⟨1, 0, 0⟩ = 0 :=
  geometry_total_at_zero.2 ⟨0, 0, 0⟩ ⟨1, 0, 0⟩
    (Or.inl (by unfold mag3; norm_num))

end VectorMath

namespace RateLimit

lemma storeGet_storeSet (s : RLStore) (id : String) (e : RLEntry) :
    storeGet (storeSet s id e) id = some e := by
  unfold storeGet storeSet
  by_cases h : (List.find? (fun p => p.1 = id) s).isSome
  · simp only [h, if_true]
    induction s with
    | nil => simp at h
    | cons p ps ih =>
      by_cases hp : p.1 = id
      · simp [List.find?, hp]
      · have hps : (List.find? (fun p => p.1 = id) ps).isSome := by
          simpa [List.find?_cons, hp] using h
        simpa [List.find?_cons, hp] using ih hps
  · simp only [h, if_false]
    induction s with
    | nil => simp [List.find?]
    | cons p ps ih =>
      by_cases hp : p.1 = id
      · exfalso
        apply h
        simp [List.find?_cons, hp]
      · have hps : ¬ (List.find? (fun p => p.1 = id) ps).isSome := by
          intro hc
          apply h
          simp [List.find?_cons, hp, hc]
        simpa [List.find?_cons, hp] using ih hps

lemma storeGet_cleanup_of_live (s : RLStore) (id : String) (e : RLEntry)
    (now : ℕ) (hlive : now < e.resetAt) (h : storeGet s id = some e) :
    storeGet (cleanup now s) id = some e := by
  unfold storeGet cleanup at *
  induction s with
  | nil => simp at h
  | cons p ps ih =>
    by_cases hp : p.1 = id
    · have hpe : p.2 = e := by
        simp [List.find?_cons, hp] at h
        exact h
      subst hpe
      simp [List.filter, hlive, List.find?_cons, hp]
    · have hh : (List.find? (fun q => q.1 = id) ps).map (fun q => q.2) = some e := by
        simpa [List.find?_cons, hp] using h
      by_cases hkeep : now < p.2.resetAt
      · simpa [List.filter, hkeep, List.find?_cons, hp] using ih hh
      · simpa [List.filter, hkeep] using ih hh

/-- After the first (entry-creating) call, the stored entry for the
client is count 1 with resetAt = now + windowMs, regardless of the sweep. -/
lemma checkRateLimit_fresh (id : String) (now : ℕ) (s : RLStore)
    (h : storeGet s id = none) :
    (checkRateLimit id now s).1 = ⟨true, 59, now + windowMs⟩ ∧
    storeGet (checkRateLimit id now s).2 id = some ⟨1, now + windowMs⟩ := by
  unfold checkRateLimit
  simp only [h]
  refine ⟨rfl, ?_⟩
  by_cases hlen : 1000 < (storeSet s id ⟨1, now + windowMs⟩).length
  · simp only [hlen, if_true]
    exact storeGet_cleanup_of_live _ _ _ _ (by simp [windowMs]) (storeGet_storeSet s id _)
  · simp only [hlen, if_false]
    exact storeGet_storeSet s id _

/-- Behaviour of a run of further calls while the window is live: with the
stored count at c (1 ≤ c), call number i of the run is allowed exactly
when c + i < 60, every result carries the unchanged resetAt, every denied
result has remaining 0, and the number of allowed results is
min ts.length (60 - c). -/
lemma rlRun_live (id : String) (reset : ℕ) :
    ∀ (ts : List ℕ) (s : RLStore) (c : ℕ), 1 ≤ c →
    storeGet s id = some ⟨c, reset⟩ →
    (∀ t ∈ ts, t < reset) →
    countAllowed (rlRun id s ts).1 = min ts.length (60 - c) ∧
    (∀ r ∈ (rlRun id s ts).1, r.resetAt = reset ∧ (r.allowed = false → r.remaining = 0)) := by
  intro ts
  induction ts with
  | nil =>
    intro s c _ _ _
    simp [rlRun, countAllowed]
  | cons t ts ih =>
    intro s c hc hs hts
    have ht : t < reset := hts t (List.mem_cons_self _ _)
    have hts2 : ∀ u ∈ ts, u < reset := fun u hu => hts u (List.mem_cons_of_mem _ hu)
    have hnotexp : ¬ reset ≤ t := by omega
    by_cases hmax : maxRequests ≤ c
    · -- denied path: store unchanged
      have hstep : checkRateLimit id t s = (⟨false, 0, reset⟩, s) := by
        unfold checkRateLimit
        simp only [hs, hnotexp, if_false, hmax, if_true]
      have hrest := ih s c hc hs hts2
      unfold rlRun
      rw [hstep]
      have hmin : min ts.length (60 - c) = 0 := by
        unfold maxRequests at hmax; omega
      have hmin2 : min (ts.length + 1) (60 - c) = 0 := by
        unfold maxRequests at hmax; omega
      constructor
      · simpa [countAllowed, hmin2, hmin] using hrest.1
      · intro r hr
        rcases List.mem_cons.mp hr with h1 | h2
        · subst h1; exact ⟨rfl, fun _ => rfl⟩
        · exact hrest.2 r h2
    · -- allowed path: count increments
      have hstep : checkRateLimit id t s =
          (⟨true, maxRequests - (c + 1), reset⟩, storeSet s id ⟨c + 1, reset⟩) := by
        unfold checkRateLimit
        simp only [hs, hnotexp, if_false, hmax]
      have hs2 : storeGet (storeSet s id ⟨c + 1, reset⟩) id = some ⟨c + 1, reset⟩ :=
        storeGet_storeSet s id _
      have hrest := ih (storeSet s id ⟨c + 1, reset⟩) (c + 1) (by omega) hs2 hts2
      unfold rlRun
      rw [hstep]
      have hcnt : min (ts.length + 1) (60 - c) = min ts.length (60 - (c + 1)) + 1 := by
        unfold maxRequests at hmax; omega
      constructor
      · rw [List.length_cons, hcnt]
        have h0 := hrest.1
        simp only [countAllowed, List.filter_cons] at h0 ⊢
        simp only [if_true]
        rw [List.length_cons, h0]
      · intro r hr
        rcases List.mem_cons.mp hr with h1 | h2
        · subst h1; exact ⟨rfl, fun hfalse => by cases hfalse⟩
        · exact hrest.2 r h2

end RateLimit

namespace TapContext

lemma atan2_zero_pos {x : ℝ} (hx : 0 < x) : atan2 0 x = 0 := by
  unfold atan2
  rw [if_pos hx]
  simp

lemma atan2_zero_zero : atan2 0 0 = 0 := by
  unfold atan2
  norm_num

lemma haversineDist_self (lat lng : ℝ) : haversineDist lat lng lat lng = 0 := by
  unfold haversineDist
  have h1 : (lat - lat) * Real.pi / 180 = 0 := by ring
  have h2 : (lng - lng) * Real.pi / 180 = 0 := by ring
  rw [h1, h2]
  simp only [zero_div, Real.sin_zero, mul_zero, zero_mul, add_zero, zero_add,
    sub_zero, Real.sqrt_zero, Real.sqrt_one]
  rw [atan2_zero_pos (by norm_num : (0:ℝ) < 1)]
  ring

lemma bearingDeg_self (lat lng : ℝ) : bearingDeg lat lng lat lng = 0 := by
  unfold bearingDeg
  have h2 : (lng - lng) * Real.pi / 180 = 0 := by ring
  rw [h2]
  simp only [Real.sin_zero, Real.cos_zero, zero_mul, mul_one]
  have hx : Real.cos (lat * Real.pi / 180) * Real.sin (lat * Real.pi / 180) -
      Real.sin (lat * Real.pi / 180) * Real.cos (lat * Real.pi / 180) = 0 := by ring
  rw [hx, atan2_zero_zero, zero_mul, zero_div]

lemma foldl_pick_firstMax {α : Type} (score : α → ℝ) :
    ∀ (xs : List α) (x : α),
    IsFirstMax score (x :: xs) (xs.foldl (fun b c => if score b < score c then c else b) x) := by
  intro xs
  induction xs with
  | nil =>
    intro x
    exact ⟨[], [], rfl, by simp, by simp⟩
  | cons y ys ih =>
    intro x
    by_cases hxy : score x < score y
    · have hfold : (y :: ys).foldl (fun b c => if score b < score c then c else b) x =
          ys.foldl (fun b c => if score b < score c then c else b) y := by
        simp [List.foldl_cons, hxy]
      rw [hfold]
      obtain ⟨l₁, l₂, heq, hlt, hle⟩ := ih y
      refine ⟨x :: l₁, l₂, by rw [List.cons_append, ← heq], ?_, hle⟩
      intro c hc
      rcases List.mem_cons.mp hc with hcx | hcl
      · rw [hcx]
        rcases List.cons_eq_append_iff.mp heq with ⟨-, hB⟩ | ⟨l₁t, hA, -⟩
        · have hMy : ys.foldl (fun b c => if score b < score c then c else b) y = y := by
            exact (List.cons_eq_cons.mp hB).1
          rw [hMy]
          exact hxy
        · have hyl : y ∈ l₁ := by rw [hA]; exact List.mem_cons_self _ _
          exact lt_trans hxy (hlt y hyl)
      · exact hlt c hcl
    · have hfold : (y :: ys).foldl (fun b c => if score b < score c then c else b) x =
          ys.foldl (fun b c => if score b < score c then c else b) x := by
        simp [List.foldl_cons, hxy]
      rw [hfold]
      obtain ⟨l₁, l₂, heq, hlt, hle⟩ := ih x
      rcases List.cons_eq_append_iff.mp heq with ⟨hl₁, hB⟩ | ⟨l₁t, hA, hys⟩
      · have hMx : ys.foldl (fun b c => if score b < score c then c else b) x = x :=
          (List.cons_eq_cons.mp hB).1
        have hl₂ : l₂ = ys := (List.cons_eq_cons.mp hB).2
        rw [hMx]
        refine ⟨[], y :: ys, by simp, by simp, ?_⟩
        intro c hc
        rcases List.mem_cons.mp hc with hcy | hcl
        · rw [hcy]; exact le_of_not_lt hxy
        · have := hle c (by rw [hl₂]; exact hcl)
          rw [hMx] at this
          exact this
      · refine ⟨x :: y :: l₁t, l₂, by rw [List.cons_append, List.cons_append, ← hys], ?_, hle⟩
        have hxl : x ∈ l₁ := by rw [hA]; exact List.mem_cons_self _ _
        intro c hc
        rcases List.mem_cons.mp hc with hcx | hcl
        · rw [hcx]; exact hlt x hxl
        · rcases List.mem_cons.mp hcl with hcy | hct
          · rw [hcy]
            exact lt_of_le_of_lt (le_of_not_lt hxy) (hlt x hxl)
          · exact hlt c (by rw [hA]; exact List.mem_cons_of_mem _ hct)

lemma isFirstMax_unique {α : Type} (score : α → ℝ) :
    ∀ (l : List α) (m₁ m₂ : α),
    IsFirstMax score l m₁ → IsFirstMax score l m₂ → m₁ = m₂ := by
  intro l
  induction l with
  | nil =>
    intro m₁ m₂ h1 _
    obtain ⟨l₁, l₂, heq, -, -⟩ := h1
    exact absurd heq (by simp)
  | cons a t ih =>
    intro m₁ m₂ h1 h2
    obtain ⟨l₁, l₂, heq1, hlt1, hle1⟩ := h1
    obtain ⟨l₃, l₄, heq2, hlt2, hle2⟩ := h2
    rcases l₁ with _ | ⟨b, l₁t⟩ <;> rcases l₃ with _ | ⟨c, l₃t⟩
    · -- both splits start at the head
      have e1 : a = m₁ ∧ t = l₂ := by simpa using heq1
      have e2 : a = m₂ ∧ t = l₄ := by simpa using heq2
      exact e1.1.symm.trans e2.1
    · -- m₁ is the head, m₂ lies strictly inside: contradiction
      exfalso
      have e1 : a = m₁ ∧ t = l₂ := by simpa using heq1
      have e2 : a = c ∧ t = l₃t ++ m₂ :: l₄ := by simpa using heq2
      have hm2t : m₂ ∈ t := by
        rw [e2.2]
        exact List.mem_append.mpr (Or.inr (List.mem_cons_self _ _))
      have hlem : score m₂ ≤ score m₁ :=
        hle1 m₂ (by rw [← e1.2]; exact hm2t)
      have hltm : score m₁ < score m₂ := by
        have hmem : a ∈ c :: l₃t := by rw [e2.1]; exact List.mem_cons_self _ _
        have := hlt2 a hmem
        rw [← e1.1]
        exact this
      exact absurd hlem (not_le.mpr hltm)
    · -- symmetric case
      exfalso
      have e1 : a = b ∧ t = l₁t ++ m₁ :: l₂ := by simpa using heq1
      have e2 : a = m₂ ∧ t = l₄ := by simpa using heq2
      have hm1t : m₁ ∈ t := by
        rw [e1.2]
        exact List.mem_append.mpr (Or.inr (List.mem_cons_self _ _))
      have hlem : score m₁ ≤ score m₂ :=
        hle2 m₁ (by rw [← e2.2]; exact hm1t)
      have hltm : score m₂ < score m₁ := by
        have hmem : a ∈ b :: l₁t := by rw [e1.1]; exact List.mem_cons_self _ _
        have := hlt1 a hmem
        rw [← e2.1]
        exact this
      exact absurd hlem (not_le.mpr hltm)
    · -- both splits go through the tail
      have e1 : a = b ∧ t = l₁t ++ m₁ :: l₂ := by simpa using heq1
      have e2 : a = c ∧ t = l₃t ++ m₂ :: l₄ := by simpa using heq2
      refine ih m₁ m₂ ⟨l₁t, l₂, e1.2, ?_, hle1⟩ ⟨l₃t, l₄, e2.2, ?_, hle2⟩
      · intro d hd
        exact hlt1 d (List.mem_cons_of_mem _ hd)
      · intro d hd
        exact hlt2 d (List.mem_cons_of_mem _ hd)

lemma bestBy_iff_isFirstMax {α : Type} (score : α → ℝ) (l : List α) (m : α) :
    bestBy score l = some m ↔ IsFirstMax score l m := by
  constructor
  · intro h
    cases l with
    | nil => simp [bestBy] at h
    | cons x xs =>
      have hm : xs.foldl (fun b c => if score b < score c then c else b) x = m := by
        simpa [bestBy] using h
      rw [← hm]
      exact foldl_pick_firstMax score xs x
  · intro h
    cases l with
    | nil =>
      obtain ⟨l₁, l₂, heq, -, -⟩ := h
      exact absurd heq (by simp)
    | cons x xs =>
      have h2 := foldl_pick_firstMax score xs x
      have := isFirstMax_unique score (x :: xs) _ _ h2 h
      simp [bestBy, this]

lemma isFirstMax_mem {α : Type} {score : α → ℝ} {l : List α} {m : α}
    (h : IsFirstMax score l m) : m ∈ l := by
  obtain ⟨l₁, l₂, heq, -, -⟩ := h
  rw [heq]
  exact List.mem_append.mpr (Or.inr (List.mem_cons_self _ _))

lemma isFirstMax_le {α : Type} {score : α → ℝ} {l : List α} {m : α}
    (h : IsFirstMax score l m) : ∀ c ∈ l, score c ≤ score m := by
  obtain ⟨l₁, l₂, heq, hlt, hle⟩ := h
  intro c hc
  rw [heq] at hc
  rcases List.mem_append.mp hc with h1 | h2
  · exact le_of_lt (hlt c h1)
  · rcases List.mem_cons.mp h2 with h3 | h4
    · subst h3; exact le_rfl
    · exact hle c h4

lemma strLower_eq_empty_iff (s : String) : strLower s = "" ↔ s = "" := by
  constructor
  · intro h
    have hdata := congrArg String.data h
    simp only [strLower] at hdata
    have : s.data = [] := by
      have := List.map_eq_nil_iff.mp hdata
      exact this
    exact String.ext this
  · intro h
    rw [h]
    rfl

lemma scoreCandidateA_elim {vn : String} {la lo : ℚ} {c : Candidate} {s : ScoredA}
    (h : scoreCandidateA vn la lo c = some s) :
    ∃ plat plng, c.lat = some plat ∧ c.lng = some plng ∧ ¬(plat = 0 ∨ plng = 0) ∧
      s.place = c ∧
      s.distance = haversineDist (la : ℝ) (lo : ℝ) (plat : ℝ) (plng : ℝ) ∧
      s.nameScore = ((nameScore (strLower vn) (strLower c.name) : ℚ) : ℝ) ∧
      s.score = s.nameScore * (7/10) + (1 - min (s.distance / 2000) 1) * (3/10) := by
  unfold scoreCandidateA at h
  cases hlat : c.lat with
  | none => rw [hlat] at h; cases h
  | some plat =>
    cases hlng : c.lng with
    | none => rw [hlat, hlng] at h; simp at h
    | some plng =>
      rw [hlat, hlng] at h
      simp only at h
      by_cases hz : plat = 0 ∨ plng = 0
      · rw [if_pos hz] at h; cases h
      · rw [if_neg hz] at h
        refine ⟨plat, plng, rfl, rfl, hz, ?_, ?_, ?_, ?_⟩ <;>
          (cases h; rfl)

lemma mem_of_scoredA {vn : String} {la lo : ℚ} {results : List Candidate} {s : ScoredA}
    (h : s ∈ results.filterMap (scoreCandidateA vn la lo)) : s.place ∈ results := by
  obtain ⟨c, hc, hsc⟩ := List.mem_filterMap.mp h
  obtain ⟨-, -, -, -, -, hplace, -⟩ := scoreCandidateA_elim hsc
  rw [hplace]
  exact hc

/-- C1: Strategy A scoring.  First part: every candidate scored from the
text-search results (the map skips only candidates with falsy geometry)
gets the specified name score when a vision hint name is present, its
distance is the Haversine distance from the device location, and its
composite score is 0.7 x nameScore + 0.3 x (1 - min(distance/2000, 1)).
Second part: an accepted match is one of the scored candidates, scores at
least as high as every scored candidate, and is accepted only with
distance strictly below 2000 m. -/
theorem strategyA_scoring (vn : String) (la lo : ℚ) (results : List Candidate)
    (hvn : vn ≠ "") :
    (∀ c ∈ results, ∀ s, scoreCandidateA vn la lo c = some s →
      s.nameScore = ((nameScoreSpec vn c.name : ℚ) : ℝ) ∧
      (∃ plat plng, c.lat = some plat ∧ c.lng = some plng ∧
        s.distance = haversineDist (la : ℝ) (lo : ℝ) (plat : ℝ) (plng : ℝ)) ∧
      s.score = (7/10) * s.nameScore + (3/10) * (1 - min (s.distance / 2000) 1)) ∧
    (∀ m, strategyAMatch vn la lo results = some m →
      m.place ∈ results ∧ m.distance < 2000 ∧
      ∀ s ∈ results.filterMap (scoreCandidateA vn la lo), s.score ≤ m.score) := by
  have hns : ∀ cn : String,
      nameScore (strLower vn) (strLower cn) = nameScoreSpec vn cn := by
    intro cn
    unfold nameScore nameScoreSpec
    rw [if_neg (fun hc => hvn ((strLower_eq_empty_iff vn).mp hc))]
  constructor
  · intro c _ s hs
    obtain ⟨plat, plng, hlat, hlng, -, -, hdist, hnsc, hscore⟩ := scoreCandidateA_elim hs
    refine ⟨?_, ⟨plat, plng, hlat, hlng, hdist⟩, ?_⟩
    · rw [hnsc, hns]
    · rw [hscore]; ring
  · intro m hm
    unfold strategyAMatch at hm
    simp only at hm
    cases hbest : bestBy ScoredA.score (results.filterMap (scoreCandidateA vn la lo)) with
    | none => rw [hbest] at hm; cases hm
    | some b =>
      rw [hbest] at hm
      dsimp only at hm
      by_cases hd : b.distance < 2000
      · rw [if_pos hd] at hm
        injection hm with hbm
        subst hbm
        have hfm := (bestBy_iff_isFirstMax ScoredA.score _ b).mp hbest
        exact ⟨mem_of_scoredA (isFirstMax_mem hfm), hd, isFirstMax_le hfm⟩
      · rw [if_neg hd] at hm; cases hm

lemma scoreCandidateB_elim {vt : Option String} {la lo : ℚ} {dir : Vec3}
    {c : Candidate} {s : ScoredB}
    (h : scoreCandidateB vt la lo dir c = some s) :
    ∃ plat plng, c.lat = some plat ∧ c.lng = some plng ∧ ¬(plat = 0 ∨ plng = 0) ∧
      s.place = c ∧
      s.distance = haversineDist (la : ℝ) (lo : ℝ) (plat : ℝ) (plng : ℝ) ∧
      s.bearing = bearingDeg (la : ℝ) (lo : ℝ) (plat : ℝ) (plng : ℝ) ∧
      s.score = distanceScoreSpec s.distance +
        (1/2) * directionScoreSpec s.bearing (atan2 dir.x dir.z * 180 / Real.pi) +
        typeBonusSpec vt c.types := by
  unfold scoreCandidateB at h
  cases hlat : c.lat with
  | none => rw [hlat] at h; cases h
  | some plat =>
    cases hlng : c.lng with
    | none => rw [hlat, hlng] at h; simp at h
    | some plng =>
      rw [hlat, hlng] at h
      simp only at h
      by_cases hz : plat = 0 ∨ plng = 0
      · rw [if_pos hz] at h; cases h
      · rw [if_neg hz] at h
        refine ⟨plat, plng, rfl, rfl, hz, ?_, ?_, ?_, ?_⟩
        · cases h; rfl
        · cases h; rfl
        · cases h; rfl
        · cases h
          unfold distanceScoreSpec directionScoreSpec typeBonusSpec
          by_cases hb : typeBonusApplies vt c.types
          · simp only [hb, if_true]
            ring
          · simp [hb]
            ring

lemma mem_of_scoredB {vt : Option String} {la lo : ℚ} {dir : Vec3}
    {results : List Candidate} {s : ScoredB}
    (h : s ∈ results.filterMap (scoreCandidateB vt la lo dir)) : s.place ∈ results := by
  obtain ⟨c, hc, hsc⟩ := List.mem_filterMap.mp h
  obtain ⟨-, -, -, -, -, hplace, -⟩ := scoreCandidateB_elim hsc
  rw [hplace]
  exact hc

/-- C2: Strategy B scoring.  First part: every candidate scored from the
nearby-search results gets distance score 1/(1 + distance/50), direction
score 1 - bearingDiff/45 when bearingDiff is below 45 degrees and 0
otherwise (with the tap bearing atan2(direction.x, direction.z) in
degrees), and a 0.3 type bonus exactly when the vision type and some
candidate tag contain each other; the composite score is
distanceScore + 0.5 x directionScore + typeBonus.  Second part: an
accepted match is one of the scored candidates, scores at least as high
as every scored candidate, and is accepted only with distance below the
150 m search radius and score above 0.2. -/
theorem strategyB_scoring (vt : Option String) (la lo : ℚ) (dir : Vec3)
    (results : List Candidate) :
    (∀ c ∈ results, ∀ s, scoreCandidateB vt la lo dir c = some s →
      (∃ plat plng, c.lat = some plat ∧ c.lng = some plng ∧
        s.distance = haversineDist (la : ℝ) (lo : ℝ) (plat : ℝ) (plng : ℝ) ∧
        s.bearing = bearingDeg (la : ℝ) (lo : ℝ) (plat : ℝ) (plng : ℝ)) ∧
      s.score = distanceScoreSpec s.distance +
        (1/2) * directionScoreSpec s.bearing (atan2 dir.x dir.z * 180 / Real.pi) +
        typeBonusSpec vt c.types) ∧
    (∀ m, strategyBMatch vt la lo dir results = some m →
      m.place ∈ results ∧ m.distance < 150 ∧ (1/5 : ℝ) < m.score ∧
      ∀ s ∈ results.filterMap (scoreCandidateB vt la lo dir), s.score ≤ m.score) := by
  constructor
  · intro c _ s hs
    obtain ⟨plat, plng, hlat, hlng, -, -, hdist, hbear, hscore⟩ := scoreCandidateB_elim hs
    exact ⟨⟨plat, plng, hlat, hlng, hdist, hbear⟩, hscore⟩
  · intro m hm
    unfold strategyBMatch at hm
    simp only at hm
    cases hbest : bestBy ScoredB.score (results.filterMap (scoreCandidateB vt la lo dir)) with
    | none => rw [hbest] at hm; cases hm
    | some b =>
      rw [hbest] at hm
      dsimp only at hm
      by_cases hd : b.distance < 150 ∧ (1/5 : ℝ) < b.score
      · rw [if_pos hd] at hm
        injection hm with hbm
        subst hbm
        have hfm := (bestBy_iff_isFirstMax ScoredB.score _ b).mp hbest
        exact ⟨mem_of_scoredB (isFirstMax_mem hfm), hd.1, hd.2, isFirstMax_le hfm⟩
      · rw [if_neg hd] at hm; cases hm

/-- C8: ranking determinism.  Both selection strategies are pure
functions of the candidate list and hint, characterized exactly: a
candidate is selected if and only if it is the unique first
maximal-score element of the scored list (and passes the acceptance
test).  Since IsFirstMax determines its element uniquely
(isFirstMax_unique) and both directions of the characterization hold,
running the scoring and selection twice on identical inputs necessarily
selects the identical candidate; no iteration-order nondeterminism can
enter. -/
theorem ranking_deterministic (vn : String) (vt : Option String) (la lo : ℚ)
    (dir : Vec3) (results : List Candidate) :
    (∀ m, strategyAMatch vn la lo results = some m ↔
      (IsFirstMax ScoredA.score (results.filterMap (scoreCandidateA vn la lo)) m ∧
        m.distance < 2000)) ∧
    (∀ m, strategyBMatch vt la lo dir results = some m ↔
      (IsFirstMax ScoredB.score (results.filterMap (scoreCandidateB vt la lo dir)) m ∧
        m.distance < 150 ∧ (1/5 : ℝ) < m.score)) := by
  constructor
  · intro m
    constructor
    · intro hm
      unfold strategyAMatch at hm
      simp only at hm
      cases hbest : bestBy ScoredA.score (results.filterMap (scoreCandidateA vn la lo)) with
      | none => rw [hbest] at hm; cases hm
      | some b =>
        rw [hbest] at hm
        dsimp only at hm
        by_cases hd : b.distance < 2000
        · rw [if_pos hd] at hm
          injection hm with hbm
          subst hbm
          exact ⟨(bestBy_iff_isFirstMax ScoredA.score _ b).mp hbest, hd⟩
        · rw [if_neg hd] at hm; cases hm
    · intro ⟨hfm, hd⟩
      have hbest := (bestBy_iff_isFirstMax ScoredA.score _ m).mpr hfm
      unfold strategyAMatch
      simp only
      rw [hbest]
      dsimp only
      rw [if_pos hd]
  · intro m
    constructor
    · intro hm
      unfold strategyBMatch at hm
      simp only at hm
      cases hbest : bestBy ScoredB.score (results.filterMap (scoreCandidateB vt la lo dir)) with
      | none => rw [hbest] at hm; cases hm
      | some b =>
        rw [hbest] at hm
        dsimp only at hm
        by_cases hd : b.distance < 150 ∧ (1/5 : ℝ) < b.score
        · rw [if_pos hd] at hm
          injection hm with hbm
          subst hbm
          exact ⟨(bestBy_iff_isFirstMax ScoredB.score _ b).mp hbest, hd.1, hd.2⟩
        · rw [if_neg hd] at hm; cases hm
    · intro ⟨hfm, hd1, hd2⟩
      have hbest := (bestBy_iff_isFirstMax ScoredB.score _ m).mpr hfm
      unfold strategyBMatch
      simp only
      rw [hbest]
      dsimp only
      rw [if_pos ⟨hd1, hd2⟩]

lemma selectPlace_world_gemini (vr : Option VisionResult) (la lo : ℚ) (dir : Vec3)
    (g : GeminiResponse) (ts : List TextSearchResponse) (nb : NearbyResponse)
    (dt : DetailsResponse) (geo : GeoResponse) (hk : Bool) :
    selectPlace vr la lo dir ⟨g, ts, nb, dt, geo, hk⟩ =
      selectPlace vr la lo dir ⟨.okNoText, ts, nb, dt, geo, hk⟩ := rfl

lemma geoEffective_world_gemini (la lo : ℚ)
    (g : GeminiResponse) (ts : List TextSearchResponse) (nb : NearbyResponse)
    (dt : DetailsResponse) (geo : GeoResponse) (hk : Bool) :
    geoEffective la lo ⟨g, ts, nb, dt, geo, hk⟩ =
      geoEffective la lo ⟨.okNoText, ts, nb, dt, geo, hk⟩ := rfl

lemma tapContextBody_gemini_congr (req : TapRequest) (w : World) (g1 g2 : GeminiResponse)
    (h : visionHint g1 = visionHint g2) :
    tapContextBody req { w with gemini := g1 } = tapContextBody req { w with gemini := g2 } := by
  unfold tapContextBody
  simp only [h, selectPlace_world_gemini, geoEffective_world_gemini]

/-- C5: a vision-collaborator failure never aborts the attempt.  For
every failing Gemini outcome (thrown fetch, non-OK status, empty
response, or text without a JSON object) the vision hint is null, and
the handler behaves identically to a run whose vision call simply
returned nothing, so processing continues into candidate search and the
fallback ladder.  When the response text holds a JSON object that fails
to parse, the hint is instead built from the regex-extracted name, type
and description. -/
theorem vision_failure_resilient :
    (∀ g ∈ ([.fetchError, .httpNotOk, .okNoText, .okNoJson] : List GeminiResponse),
      visionHint g = none) ∧
    (∀ (req : TapRequest) (w : World),
      ∀ g ∈ ([.fetchError, .httpNotOk, .okNoText, .okNoJson] : List GeminiResponse),
      tapContextBody req { w with gemini := g } =
        tapContextBody req { w with gemini := .okNoText }) ∧
    (∀ n t d, visionHint (.okUnparsable n t d) =
      some ⟨n, t, d, none, none, none, none⟩) := by
  refine ⟨?_, ?_, ?_⟩
  · intro g hg
    simp only [List.mem_cons, List.mem_singleton, List.not_mem_nil, or_false] at hg
    rcases hg with rfl | rfl | rfl | rfl <;> rfl
  · intro req w g hg
    apply tapContextBody_gemini_congr
    simp only [List.mem_cons, List.mem_singleton, List.not_mem_nil, or_false] at hg
    rcases hg with rfl | rfl | rfl | rfl <;> rfl
  · intro n t d
    rfl

/-- Witness for C5 at a concrete failing outcome: a thrown vision fetch
yields a null hint and the run equals the run with an empty vision
response. -/
theorem vision_failure_resilient_witness :
    visionHint .fetchError = none ∧
    tapContextBody ⟨some "frame", some 0, some 0, none, none⟩
        { gemini := .fetchError, textSearch := [], nearby := .fetchFailed,
          details := .fetchFailed, geo := .notOk, hasGoogleKey := false } =
      tapContextBody ⟨some "frame", some 0, some 0, none, none⟩
        { gemini := .okNoText, textSearch := [], nearby := .fetchFailed,
          details := .fetchFailed, geo := .notOk, hasGoogleKey := false } :=
  ⟨vision_failure_resilient.1 .fetchError (by simp),
    vision_failure_resilient.2.1 ⟨some "frame", some 0, some 0, none, none⟩
      { gemini := .okNoText, textSearch := [], nearby := .fetchFailed,
        details := .fetchFailed, geo := .notOk, hasGoogleKey := false }
      .fetchError (by simp)⟩

lemma finalFallback_no_location (hasKey : Bool) (tx ty : ℚ) (la lo : Option ℚ)
    (h : (qTruthy la && qTruthy lo) = false) :
    finalFallback hasKey tx ty la lo =
      ⟨"Location Required",
       "Please enable location permissions to get real information about places you tap on.",
       none, none, none, 3/10, none⟩ := by
  unfold finalFallback
  simp only [h, Bool.not_false, if_true]
  rw [if_neg (by decide :
    ¬("Please enable location permissions to get real information about places you tap on." = ""))]

lemma tapContextBody_loc_falsy (req : TapRequest) (w : World)
    (img : String) (tx ty : ℚ)
    (himg : req.image = some img) (hx : req.tapX = some tx) (hy : req.tapY = some ty)
    (hf : (qTruthy req.latitude && qTruthy req.longitude) = false) :
    tapContextBody req w =
      if img = "" then .badRequest
      else if (5 * 1024 * 1024 : ℚ) < (img.length : ℚ) * 3 / 4 then .badRequest
      else
        match visionHint w.gemini with
        | some v => .ok (visionOnlyResultC v)
        | none => .ok (finalFallback w.hasGoogleKey tx ty req.latitude req.longitude) := by
  unfold tapContextBody
  rw [himg, hx, hy]
  simp only [hf, Bool.false_and, Bool.false_eq_true, if_false]

/-- C10: a request whose latitude or longitude is exactly 0 behaves like
a request with no location at all: the candidate search and the
nearby-place fallback are both skipped (the handler output coincides
with the output for the location-free request for every world), and
absent a vision hint a validated request receives the Location Required
result with confidence 0.3. -/
theorem zero_coordinate_treated_as_no_location :
    (∀ (req : TapRequest) (w : World),
      (req.latitude = some 0 ∨ req.longitude = some 0) →
      tapContextBody req w =
        tapContextBody { req with latitude := none, longitude := none } w) ∧
    (∀ (req : TapRequest) (w : World) (img : String) (tx ty : ℚ),
      req.image = some img → img ≠ "" →
      ¬ ((5 * 1024 * 1024 : ℚ) < (img.length : ℚ) * 3 / 4) →
      req.tapX = some tx → req.tapY = some ty →
      (req.latitude = some 0 ∨ req.longitude = some 0) →
      visionHint w.gemini = none →
      tapContextBody req w =
        .ok ⟨"Location Required",
          "Please enable location permissions to get real information about places you tap on.",
          none, none, none, 3/10, none⟩) := by
  have hfalsy : ∀ (la lo : Option ℚ), (la = some 0 ∨ lo = some 0) →
      (qTruthy la && qTruthy lo) = false := by
    intro la lo h
    rcases h with h | h <;> subst h <;> simp [qTruthy]
  constructor
  · intro req w h
    obtain ⟨oimg, otx, oty, ola, olo⟩ := req
    have hf : (qTruthy ola && qTruthy olo) = false := hfalsy ola olo (by simpa using h)
    cases oimg with
    | none => rfl
    | some img =>
      cases otx with
      | none => rfl
      | some tx =>
        cases oty with
        | none => rfl
        | some ty =>
          rw [tapContextBody_loc_falsy ⟨some img, some tx, some ty, ola, olo⟩ w img tx ty
                rfl rfl rfl hf,
              tapContextBody_loc_falsy ⟨some img, some tx, some ty, none, none⟩ w img tx ty
                rfl rfl rfl (by simp [qTruthy])]
          cases hv : visionHint w.gemini with
          | some v => simp only [hv]
          | none =>
            simp only [hv]
            rw [finalFallback_no_location _ tx ty ola olo hf,
              finalFallback_no_location _ tx ty none none (by simp [qTruthy])]
  · intro req w img tx ty himg hne hsize hx hy hloc hv
    have hf := hfalsy req.latitude req.longitude hloc
    rw [tapContextBody_loc_falsy req w img tx ty himg hx hy hf]
    rw [if_neg hne, if_neg hsize]
    simp only [hv]
    rw [finalFallback_no_location _ _ _ _ _ hf]

/-- Witness for C10 at a concrete request on the equator: latitude 0
yields the same run as no location, and the Location Required result. -/
theorem zero_coordinate_treated_as_no_location_witness :
    tapContextBody ⟨some "frame", some (1/2), some (1/2), some 0, some 7⟩
        { gemini := .okNoText, textSearch := [], nearby := .fetchFailed,
          details := .fetchFailed, geo := .notOk, hasGoogleKey := true } =
      tapContextBody ⟨some "frame", some (1/2), some (1/2), none, none⟩
        { gemini := .okNoText, textSearch := [], nearby := .fetchFailed,
          details := .fetchFailed, geo := .notOk, hasGoogleKey := true } ∧
    tapContextBody ⟨some "frame", some (1/2), some (1/2), some 0, some 7⟩
        { gemini := .okNoText, textSearch := [], nearby := .fetchFailed,
          details := .fetchFailed, geo := .notOk, hasGoogleKey := true } =
      .ok ⟨"Location Required",
        "Please enable location permissions to get real information about places you tap on.",
        none, none, none, 3/10, none⟩ :=
  ⟨zero_coordinate_treated_as_no_location.1
      ⟨some "frame", some (1/2), some (1/2), some 0, some 7⟩ _ (Or.inl rfl),
    zero_coordinate_treated_as_no_location.2
      ⟨some "frame", some (1/2), some (1/2), some 0, some 7⟩ _ "frame" (1/2) (1/2)
      rfl (by decide) (by norm_num [show ("frame".length) = 5 from rfl]) rfl rfl (Or.inl rfl) rfl⟩

/-- C4: whenever a candidate was accepted (Strategy A or Strategy B both
flow into selectPlace) and the detail fetch succeeded, the handler
returns the merged result, whose confidence is exactly 0.9.
mergedResult does not receive the accepted match at all, so the
confidence is independent of the nameScore or composite score of the
match. -/
theorem accepted_place_enrichment_confidence :
    ∀ (req : TapRequest) (w : World) (img : String) (tx ty : ℚ)
      (d : PlaceDetails) (pid : String),
      req.image = some img → img ≠ "" →
      ¬ ((5 * 1024 * 1024 : ℚ) < (img.length : ℚ) * 3 / 4) →
      req.tapX = some tx → req.tapY = some ty →
      (qTruthy req.latitude && qTruthy req.longitude) = true →
      w.hasGoogleKey = true →
      selectPlace (visionHint w.gemini) (req.latitude.getD 0) (req.longitude.getD 0)
        (directionOf tx ty) w = some pid →
      w.details = .result d →
      tapContextBody req w = .ok (mergedResult (visionHint w.gemini) d) ∧
      (mergedResult (visionHint w.gemini) d).confidence = 9/10 := by
  intro req w img tx ty d pid himg hne hsize hx hy hloc hkey hsel hdet
  constructor
  · unfold tapContextBody
    rw [himg, hx, hy]
    dsimp only
    rw [if_neg hne, if_neg hsize]
    simp only [hloc, hkey, Bool.and_self, if_true, hsel, hdet]
  · rfl

lemma nameScore_cafe : nameScore (strLower "Cafe") (strLower "Cafe") = 1 := by
  unfold nameScore
  rw [if_neg (by decide : ¬(strLower "Cafe" = ""))]
  rw [if_pos rfl]

lemma scoreA_cand4 : scoreCandidateA "Cafe" 1 1 cand4 = some ⟨cand4, 0, 1, 1⟩ := by
  unfold scoreCandidateA cand4
  dsimp only
  rw [if_neg (by norm_num : ¬((1 : ℚ) = 0 ∨ (1 : ℚ) = 0))]
  simp only [nameScore_cafe, Rat.cast_one, haversineDist_self]
  norm_num

lemma bestBy_singleton {α : Type} (score : α → ℝ) (x : α) :
    bestBy score [x] = some x := rfl

lemma strategyAMatch_cand4 : strategyAMatch "Cafe" 1 1 [cand4] = some ⟨cand4, 0, 1, 1⟩ := by
  unfold strategyAMatch
  simp only [List.filterMap_cons, List.filterMap_nil, scoreA_cand4, bestBy_singleton]
  rw [if_pos (by norm_num : ((⟨cand4, 0, 1, 1⟩ : ScoredA)).distance < 2000)]

lemma strategyALoop_cand4 :
    strategyALoop "Cafe" 1 1 [TextSearchResponse.results [cand4]] = some ⟨cand4, 0, 1, 1⟩ := by
  unfold strategyALoop
  dsimp only
  rw [if_neg (by decide : ¬(([cand4] : List Candidate).isEmpty = true))]
  rw [strategyAMatch_cand4]

lemma selectPlace_w4 (dir : Vec3) : selectPlace (some vr4) 1 1 dir w4 = some "pid1" := by
  unfold selectPlace vr4 w4
  simp only [List.take, strategyALoop_cand4]
  rw [if_neg (by decide : ¬("Cafe" = ""))]
  simp [strategyALoop_cand4, cand4]

/-- Witness for C4: at the concrete request and world, the handler
returns the merged result with confidence 0.9. -/
theorem accepted_place_enrichment_confidence_witness :
    tapContextBody req4 w4 = .ok (mergedResult (visionHint w4.gemini) d4) ∧
    (mergedResult (visionHint w4.gemini) d4).confidence = 9/10 :=
  accepted_place_enrichment_confidence req4 w4 "frame" (1/2) (1/2) d4 "pid1"
    rfl (by decide) (by norm_num [show ("frame".length) = 5 from rfl]) rfl rfl
    (by simp [req4, qTruthy]) rfl
    (by simpa [req4, w4, visionHint] using selectPlace_w4 (directionOf (1/2) (1/2))) rfl

lemma finalFallback_location_hasKey (tx ty la lo : ℚ) (hla : la ≠ 0) (hlo : lo ≠ 0) :
    finalFallback true tx ty (some la) (some lo) =
      ⟨"No Information Found",
       "Location: " ++ toFixed 4 la ++ ", " ++ toFixed 4 lo ++
         ". Try tapping on a visible building or landmark.",
       none, none, none, 3/10, none⟩ := by
  unfold finalFallback
  have hq : (qTruthy (some la) && qTruthy (some lo)) = true := by
    simp [qTruthy, hla, hlo]
  simp only [hq, Bool.not_true, Bool.false_eq_true, if_false, Option.getD_some]
  rw [if_neg]
  intro hcontra
  have h1 := congrArg String.length hcontra
  rw [show (("" : String)).length = 0 from rfl] at h1
  simp only [String.length_append] at h1
  rw [show (("Location: " : String)).length = 10 from rfl] at h1
  omega

/-- C3 (amended): with a truthy location, a configured API key, no
vision hint, no accepted candidate and an empty geo fallback, the
handler returns the No Information Found result with confidence 0.3
whose subtitle carries the device latitude and longitude (to four
decimal places) - not the tap coordinates: the tap-percentage subtitle
is built only when the computed subtitle is empty, which cannot happen
on this path. -/
theorem nothing_found_fallback :
    ∀ (req : TapRequest) (w : World) (img : String) (tx ty la lo : ℚ),
      req.image = some img → img ≠ "" →
      ¬ ((5 * 1024 * 1024 : ℚ) < (img.length : ℚ) * 3 / 4) →
      req.tapX = some tx → req.tapY = some ty →
      req.latitude = some la → la ≠ 0 →
      req.longitude = some lo → lo ≠ 0 →
      w.hasGoogleKey = true →
      visionHint w.gemini = none →
      selectPlace none la lo (directionOf tx ty) w = none →
      geoEffective la lo w = .ok [] →
      tapContextBody req w =
        .ok ⟨"No Information Found",
          "Location: " ++ toFixed 4 la ++ ", " ++ toFixed 4 lo ++
            ". Try tapping on a visible building or landmark.",
          none, none, none, 3/10, none⟩ := by
  intro req w img tx ty la lo himg hne hsize hx hy hla hlane hlo hlone hkey hv hsel hgeo
  have hq : (qTruthy (some la) && qTruthy (some lo)) = true := by
    simp [qTruthy, hlane, hlone]
  unfold tapContextBody
  rw [himg, hx, hy]
  dsimp only
  rw [if_neg hne, if_neg hsize]
  rw [hla, hlo]
  simp only [hv, hq, hkey, Bool.and_true, Bool.and_self, if_true, Option.getD_some, hsel, hgeo]
  rw [finalFallback_location_hasKey tx ty la lo hlane hlone]

lemma toFixed4_lat : toFixed 4 (377749/10000 : ℚ) = "37.7749" := by
  unfold toFixed
  dsimp only
  rw [if_neg (by norm_num : ¬((377749/10000 : ℚ) < 0))]
  rw [abs_of_nonneg (by norm_num : (0:ℚ) ≤ 377749/10000)]
  rw [show ((10 ^ 4 : ℕ) : ℚ) = 10000 by norm_num]
  rw [show Int.floor ((377749/10000 : ℚ) * 10000 + 1/2) = 377749 by
    norm_num [Int.floor_eq_iff]]
  rfl

lemma toFixed4_lng : toFixed 4 (-(1224194/10000) : ℚ) = "-122.4194" := by
  unfold toFixed
  dsimp only
  rw [if_pos (by norm_num : (-(1224194/10000) : ℚ) < 0)]
  rw [abs_of_nonpos (by norm_num : (-(1224194/10000) : ℚ) ≤ 0), neg_neg]
  rw [show ((10 ^ 4 : ℕ) : ℚ) = 10000 by norm_num]
  rw [show Int.floor ((1224194/10000 : ℚ) * 10000 + 1/2) = 1224194 by
    norm_num [Int.floor_eq_iff]]
  rfl

lemma toFixed0_tapX : toFixed 0 ((11/20 : ℚ) * 100) = "55" := by
  unfold toFixed
  dsimp only
  rw [if_neg (by norm_num : ¬((11/20 : ℚ) * 100 < 0))]
  rw [abs_of_nonneg (by norm_num : (0:ℚ) ≤ (11/20 : ℚ) * 100)]
  rw [show ((10 ^ 0 : ℕ) : ℚ) = 1 by norm_num]
  rw [show Int.floor ((11/20 : ℚ) * 100 * 1 + 1/2) = 55 by
    norm_num [Int.floor_eq_iff]]
  rfl

lemma toFixed0_tapY : toFixed 0 ((33/50 : ℚ) * 100) = "66" := by
  unfold toFixed
  dsimp only
  rw [if_neg (by norm_num : ¬((33/50 : ℚ) * 100 < 0))]
  rw [abs_of_nonneg (by norm_num : (0:ℚ) ≤ (33/50 : ℚ) * 100)]
  rw [show ((10 ^ 0 : ℕ) : ℚ) = 1 by norm_num]
  rw [show Int.floor ((33/50 : ℚ) * 100 * 1 + 1/2) = 66 by
    norm_num [Int.floor_eq_iff]]
  rfl

/-- C3 counterexample: at a concrete attempt with no vision hint, a
provided location, no accepted candidate and an empty geo fallback, the
handler does return a nothing-found result with confidence 0.3 - but its
subtitle carries the device coordinates 37.7749, -122.4194, and does not
contain the tap coordinates (the code would render them as 55 percent
and 66 percent, and neither digit string occurs in the subtitle), so the
claim that the result carries the original tap coordinates is false. -/
theorem nothing_found_carries_location_not_tap :
    tapContextBody reqC3 wC3 =
      .ok ⟨"No Information Found",
        "Location: 37.7749, -122.4194. Try tapping on a visible building or landmark.",
        none, none, none, 3/10, none⟩ ∧
    toFixed 0 ((11/20 : ℚ) * 100) = "55" ∧
    toFixed 0 ((33/50 : ℚ) * 100) = "66" ∧
    strIncludes "Location: 37.7749, -122.4194. Try tapping on a visible building or landmark."
      "55" = false ∧
    strIncludes "Location: 37.7749, -122.4194. Try tapping on a visible building or landmark."
      "66" = false := by
  refine ⟨?_, toFixed0_tapX, toFixed0_tapY, by decide, by decide⟩
  have h := nothing_found_fallback reqC3 wC3 "frame" (11/20) (33/50)
    (377749/10000) (-(1224194/10000)) rfl (by decide)
    (by norm_num [show ("frame".length) = 5 from rfl]) rfl rfl rfl (by norm_num)
    rfl (by norm_num) rfl rfl rfl
    (by
      unfold geoEffective
      rw [if_neg (by norm_num :
        ¬((377749/10000 : ℚ) < -90 ∨ (90:ℚ) < 377749/10000 ∨
          (-(1224194/10000) : ℚ) < -180 ∨ (180:ℚ) < -(1224194/10000)))]
      rfl)
  rw [h, toFixed4_lat, toFixed4_lng]
  rfl

/-- Witness for the amended C3 theorem at the concrete scenario input. -/
theorem nothing_found_fallback_witness :
    tapContextBody reqC3 wC3 =
      .ok ⟨"No Information Found",
        "Location: " ++ toFixed 4 (377749/10000 : ℚ) ++ ", " ++
          toFixed 4 (-(1224194/10000) : ℚ) ++
          ". Try tapping on a visible building or landmark.",
        none, none, none, 3/10, none⟩ :=
  nothing_found_fallback reqC3 wC3 "frame" (11/20) (33/50)
    (377749/10000) (-(1224194/10000)) rfl (by decide)
    (by norm_num [show ("frame".length) = 5 from rfl]) rfl rfl rfl (by norm_num)
    rfl (by norm_num) rfl rfl rfl
    (by
      unfold geoEffective
      rw [if_neg (by norm_num :
        ¬((377749/10000 : ℚ) < -90 ∨ (90:ℚ) < 377749/10000 ∨
          (-(1224194/10000) : ℚ) < -180 ∨ (180:ℚ) < -(1224194/10000)))]
      rfl)

lemma rlRun_cons (id : String) (t0 : ℕ) (ts : List ℕ) (s : RateLimit.RLStore) :
    RateLimit.rlRun id s (t0 :: ts) =
      ((RateLimit.checkRateLimit id t0 s).1 ::
        (RateLimit.rlRun id (RateLimit.checkRateLimit id t0 s).2 ts).1,
       (RateLimit.rlRun id (RateLimit.checkRateLimit id t0 s).2 ts).2) := rfl

/-- C6: rate limiting.  For a client with no live entry, a run of calls
whose times all fall inside the window opened by the first call yields
exactly min(n, 60) allowed results, every result carries the unchanged
window expiry, and every denied result has remaining 0; and a denied
tap-context request is answered with the throttled response
independently of the request body and of every collaborator (so before
any of them can be consulted). -/
theorem rateLimit_spec :
    (∀ (id : String) (s : RateLimit.RLStore) (t0 : ℕ) (ts : List ℕ),
      RateLimit.storeGet s id = none →
      (∀ t ∈ ts, t < t0 + RateLimit.windowMs) →
      RateLimit.countAllowed (RateLimit.rlRun id s (t0 :: ts)).1 = min (ts.length + 1) 60 ∧
      (∀ r ∈ (RateLimit.rlRun id s (t0 :: ts)).1,
        r.resetAt = t0 + RateLimit.windowMs ∧ (r.allowed = false → r.remaining = 0))) ∧
    (∀ (id : String) (now : ℕ) (s : RateLimit.RLStore) (req req2 : TapRequest)
      (w w2 : World),
      (RateLimit.checkRateLimit id now s).1.allowed = false →
      (tapContextPOST id now s req w).1 = .rateLimited ∧
      (tapContextPOST id now s req w).1 = (tapContextPOST id now s req2 w2).1) := by
  constructor
  · intro id s t0 ts h0 hts
    have hfresh := RateLimit.checkRateLimit_fresh id t0 s h0
    have hrest := RateLimit.rlRun_live id (t0 + RateLimit.windowMs) ts
      (RateLimit.checkRateLimit id t0 s).2 1 le_rfl hfresh.2 hts
    constructor
    · rw [rlRun_cons]
      simp only [RateLimit.countAllowed, List.filter_cons, hfresh.1, if_true, List.length_cons]
      have hcnt := hrest.1
      simp only [RateLimit.countAllowed] at hcnt
      rw [hcnt]
      omega
    · intro r hr
      rw [rlRun_cons] at hr
      rcases List.mem_cons.mp hr with h1 | h2
      · rw [h1, hfresh.1]
        exact ⟨rfl, fun hcontra => by cases hcontra⟩
      · exact hrest.2 r h2
  · intro id now s req req2 w w2 hdeny
    unfold tapContextPOST
    constructor
    · simp only [hdeny, Bool.false_eq_true, if_false]
    · simp only [hdeny, Bool.false_eq_true, if_false]

/-- Witness for C6: three calls in one window are all allowed (count 3 =
min(3, 60)), and a concrete denied client receives the throttled
response. -/
theorem rateLimit_spec_witness :
    RateLimit.countAllowed (RateLimit.rlRun "a" [] [0, 1, 2]).1 = 3 ∧
    (tapContextPOST "a" 50 [("a", (⟨60, 100⟩ : RateLimit.RLEntry))]
      ⟨none, none, none, none, none⟩
      ⟨.okNoText, [], .fetchFailed, .fetchFailed, .notOk, false⟩).1 = .rateLimited := by
  constructor
  · have h := (rateLimit_spec.1 "a" [] 0 [1, 2] rfl
      (by intro t ht; fin_cases ht <;> simp [RateLimit.windowMs])).1
    simpa using h
  · exact (rateLimit_spec.2 "a" 50 [("a", (⟨60, 100⟩ : RateLimit.RLEntry))]
      ⟨none, none, none, none, none⟩ ⟨none, none, none, none, none⟩
      ⟨.okNoText, [], .fetchFailed, .fetchFailed, .notOk, false⟩
      ⟨.okNoText, [], .fetchFailed, .fetchFailed, .notOk, false⟩ rfl).1

/-- Witness for C1: at a concrete exact-name match at the device
location, the scored candidate has the specified name score, is the
selected member of the list, and was accepted below 2000 m. -/
theorem strategyA_scoring_witness :
    ((⟨cand4, 0, 1, 1⟩ : ScoredA)).nameScore = ((nameScoreSpec "Cafe" cand4.name : ℚ) : ℝ) ∧
    ((⟨cand4, 0, 1, 1⟩ : ScoredA)).place ∈ [cand4] ∧
    ((⟨cand4, 0, 1, 1⟩ : ScoredA)).distance < 2000 := by
  have h := strategyA_scoring "Cafe" 1 1 [cand4] (by decide)
  have h1 := h.1 cand4 (by simp) ⟨cand4, 0, 1, 1⟩ scoreA_cand4
  have h2 := h.2 ⟨cand4, 0, 1, 1⟩ strategyAMatch_cand4
  exact ⟨h1.1, h2.1, h2.2.1⟩

lemma scoreB_cand4 :
    scoreCandidateB none 1 1 ⟨0, 0, 95/100⟩ cand4 = some ⟨cand4, 0, 0, 3/2⟩ := by
  unfold scoreCandidateB cand4
  dsimp only
  rw [if_neg (by norm_num : ¬((1 : ℚ) = 0 ∨ (1 : ℚ) = 0))]
  simp only [haversineDist_self, bearingDeg_self]
  rw [atan2_zero_pos (by norm_num : (0:ℝ) < 95/100)]
  simp only [typeBonusApplies, Bool.false_eq_true, if_false]
  norm_num

lemma strategyBMatch_cand4 :
    strategyBMatch none 1 1 ⟨0, 0, 95/100⟩ [cand4] = some ⟨cand4, 0, 0, 3/2⟩ := by
  unfold strategyBMatch
  simp only [List.filterMap_cons, List.filterMap_nil, scoreB_cand4, bestBy_singleton]
  rw [if_pos ⟨by norm_num, by norm_num⟩]

/-- Witness for C2: at a concrete nearby candidate at the device
location with a centered tap direction, the scored candidate has the
specified composite score decomposition and is accepted inside the
radius with score above 0.2. -/
theorem strategyB_scoring_witness :
    ((⟨cand4, 0, 0, 3/2⟩ : ScoredB)).score =
      distanceScoreSpec ((⟨cand4, 0, 0, 3/2⟩ : ScoredB)).distance +
        (1/2) * directionScoreSpec ((⟨cand4, 0, 0, 3/2⟩ : ScoredB)).bearing
          (atan2 (0:ℝ) (95/100) * 180 / Real.pi) +
        typeBonusSpec none cand4.types ∧
    ((⟨cand4, 0, 0, 3/2⟩ : ScoredB)).place ∈ [cand4] ∧
    ((⟨cand4, 0, 0, 3/2⟩ : ScoredB)).distance < 150 ∧
    (1/5 : ℝ) < ((⟨cand4, 0, 0, 3/2⟩ : ScoredB)).score := by
  have h := strategyB_scoring none 1 1 ⟨0, 0, 95/100⟩ [cand4]
  have h1 := h.1 cand4 (by simp) ⟨cand4, 0, 0, 3/2⟩ scoreB_cand4
  have h2 := h.2 ⟨cand4, 0, 0, 3/2⟩ strategyBMatch_cand4
  exact ⟨h1.2, h2.1, h2.2.1, h2.2.2.1⟩

/-- Witness for C8: the concretely selected Strategy A candidate is the
first maximal-score element of its scored list and passed the distance
test, by the characterization. -/
theorem ranking_deterministic_witness :
    IsFirstMax ScoredA.score (([cand4]).filterMap (scoreCandidateA "Cafe" 1 1))
      ⟨cand4, 0, 1, 1⟩ ∧
    ((⟨cand4, 0, 1, 1⟩ : ScoredA)).distance < 2000 :=
  ((ranking_deterministic "Cafe" none 1 1 ⟨0, 0, 95/100⟩ [cand4]).1
    ⟨cand4, 0, 1, 1⟩).mp strategyAMatch_cand4

end TapContext
